import Mathlib

/-!
Shallow embedding of the authorization core of the rosa-regional-platform-api
repository (Go), together with proofs about its decision pipeline, its policy
and group data model, and its two policy-engine backends.

Conventions of the embedding:
* Go strings are modelled as their character sequences (`Str := List Char`).
* Go maps are modelled as association lists; map iteration order, which Go
  leaves unspecified, is the list order of the model.
* Functions returning `(T, error)` are modelled either as `T × Option Str`
  (value together with the error message, mirroring every `return` site) or as
  `Except Str T` when the Go value carries no information on the error path.
* DynamoDB tables are modelled as lists of rows; `PutItem` overwrites the row
  with the same key, `DeleteItem` removes it (and is a no-op when absent),
  `Query` filters by the key condition.
* Scanning loops are written with an explicit fuel argument (initialised to
  the scanned length) so that every definition is structurally recursive and
  computable by the kernel.
-/

/-- Go strings, modelled as their character sequences. -/
abbrev Str := List Char

/-- Model of Go `strings.TrimPrefix`: drop `pre` when it leads `s`. -/
def goTrimPre (s pre : Str) : Str :=
  if pre.isPrefixOf s then s.drop pre.length else s

/-- Model of Go `unicode.IsSpace` (the Unicode White_Space property). -/
def goIsSpace (c : Char) : Bool :=
  c = ' ' || c = '\t' || c = '\n' || c = '\x0b' || c = '\x0c' || c = '\r' ||
  c.toNat = 0x85 || c.toNat = 0xA0 || c.toNat = 0x1680 ||
  (0x2000 ≤ c.toNat && c.toNat ≤ 0x200A) ||
  c.toNat = 0x2028 || c.toNat = 0x2029 || c.toNat = 0x202F ||
  c.toNat = 0x205F || c.toNat = 0x3000

/-- Model of Go `strings.TrimSpace`. -/
def goTrimSpace (s : Str) : Str :=
  ((s.dropWhile goIsSpace).reverse.dropWhile goIsSpace).reverse

/-- Scan underlying Go `strings.Split` for a non-empty separator `o :: os`.
The fuel argument only drives termination; it is initialised to the length of
the scanned string, which the scan never exhausts. -/
def splitLoop (o : Char) (os : Str) : Nat → Str → List Str
  | _, [] => [[]]
  | 0, s => [s]
  | fuel + 1, c :: t =>
    if (o :: os).isPrefixOf (c :: t) then
      [] :: splitLoop o os fuel (t.drop os.length)
    else
      match splitLoop o os fuel t with
      | [] => [[c]]
      | h :: r => (c :: h) :: r

/-- Model of Go `strings.Split`. The codebase only splits on non-empty
separators; the empty-separator case (split into runes) never arises and is
modelled as the identity split. -/
def goSplit (s sep : Str) : List Str :=
  match sep with
  | [] => [s]
  | o :: os => splitLoop o os s.length s

/-- Scan underlying Go `strings.ReplaceAll` for a non-empty pattern `o :: os`:
replace non-overlapping occurrences left to right. -/
def replaceLoop (o : Char) (os new : Str) : Nat → Str → Str
  | _, [] => []
  | 0, s => s
  | fuel + 1, c :: t =>
    if (o :: os).isPrefixOf (c :: t) then
      new ++ replaceLoop o os new fuel (t.drop os.length)
    else
      c :: replaceLoop o os new fuel t

/-- Model of Go `strings.ReplaceAll`. The codebase only replaces non-empty
patterns; the empty-pattern case never arises and is modelled as the
identity. -/
def goReplaceAll (s old new : Str) : Str :=
  match old with
  | [] => s
  | o :: os => replaceLoop o os new s.length s

/-- Model of Go `strings.Contains`. -/
def goContains : Str → Str → Bool
  | s, sub =>
    if sub.isPrefixOf s then true
    else
      match s with
      | [] => false
      | _ :: t => goContains t sub

/-- `splitLoop` never produces the empty list of fields. -/
theorem splitLoop_ne_nil (o : Char) (os : Str) :
    ∀ (fuel : Nat) (s : Str), splitLoop o os fuel s ≠ [] := by
  intro fuel
  induction fuel with
  | zero => intro s; cases s <;> simp [splitLoop]
  | succ n ih =>
    intro s
    cases s with
    | nil => simp [splitLoop]
    | cons c t =>
      rw [splitLoop]
      split
      · simp
      · split <;> simp

/-- `List.intercalate` over a two-or-more-field list peels off the first
field and one separator. -/
theorem intercalate_cons₂ (sep x y : Str) (l : List Str) :
    List.intercalate sep (x :: y :: l) = x ++ sep ++ List.intercalate sep (y :: l) := by
  simp [List.intercalate, List.intersperse]

/-- With enough fuel, the replace scan agrees with splitting on the pattern
and joining the fields with the replacement. -/
theorem replaceLoop_eq_intercalate (o : Char) (os new : Str) :
    ∀ (fuel : Nat) (s : Str), s.length ≤ fuel →
      replaceLoop o os new fuel s = List.intercalate new (splitLoop o os fuel s) := by
  intro fuel
  induction fuel with
  | zero =>
    intro s hs
    have : s = [] := List.eq_nil_of_length_eq_zero (Nat.le_zero.mp hs)
    subst this
    simp [replaceLoop, splitLoop, List.intercalate]
  | succ n ih =>
    intro s hs
    cases s with
    | nil => simp [replaceLoop, splitLoop, List.intercalate]
    | cons c t =>
      rw [replaceLoop, splitLoop]
      have ht : t.length ≤ n := by simpa using hs
      split
      · have hd : (t.drop os.length).length ≤ n := by
          simp only [List.length_drop]; omega
        rw [ih _ hd]
        rcases h : splitLoop o os n (t.drop os.length) with _ | ⟨f, r⟩
        · exact absurd h (splitLoop_ne_nil o os _ _)
        · rw [intercalate_cons₂]; simp
      · rw [ih _ ht]
        rcases h : splitLoop o os n t with _ | ⟨f, r⟩
        · exact absurd h (splitLoop_ne_nil o os _ _)
        · rcases r with _ | ⟨g, r⟩
          · simp [List.intercalate]
          · rw [intercalate_cons₂, intercalate_cons₂]; simp

/-- Replacing every occurrence of a non-empty pattern agrees with splitting on
the pattern and joining the fields with the replacement: this is the sense in
which `goReplaceAll` replaces each occurrence. -/
theorem goReplaceAll_eq_intercalate (s old new : Str) (h : old ≠ []) :
    goReplaceAll s old new = List.intercalate new (goSplit s old) := by
  match old with
  | [] => exact absurd rfl h
  | o :: os => exact replaceLoop_eq_intercalate o os new s.length s le_rfl

/-- Trimming a prefix off a string that carries it returns the remainder. -/
theorem goTrimPre_append (pre rest : Str) : goTrimPre (pre ++ rest) pre = rest := by
  have h : pre.isPrefixOf (pre ++ rest) = true := by
    rw [List.isPrefixOf_iff_prefix]
    exact List.prefix_append pre rest
  simp [goTrimPre, h]

example : goReplaceAll "a?pb?pc".data "?p".data "XY".data = "aXYbXYc".data := by decide
example : goSplit "a\nb\n".data "\n".data = ["a".data, "b".data, [] ] := by decide
example : goTrimSpace "  hi \t".data = "hi".data := by decide
example : goContains "failed: account not provisioned: x".data "not provisioned".data = true := by
  decide
example : goTrimPre "rosa:CreateCluster".data "rosa:".data = "CreateCluster".data := by decide

/-! ## Data model of the authorization subsystem (pkg/authz) -/

/-- AVP entity identifier (`avptypes.EntityIdentifier`). -/
structure EntityIdentifier where
  entityType : Str
  entityId : Str
deriving DecidableEq

/-- AVP action identifier (`avptypes.ActionIdentifier`). -/
structure ActionIdentifier where
  actionType : Str
  actionId : Str
deriving DecidableEq

/-- AVP attribute values (`avptypes.AttributeValue`), the context/attribute
value language of the policy engine. -/
inductive AttributeValue where
  | string (s : Str)
  | boolean (b : Bool)
  | long (n : Int)
  | record (kvs : List (Str × AttributeValue))
  | set (xs : List AttributeValue)

/-- Go values produced by JSON unmarshalling into `any`: strings, booleans,
numbers (Go `float64`; the model carries the exact rational value), objects,
arrays, and null. -/
inductive GoValue where
  | str (s : Str)
  | boolean (b : Bool)
  | num (q : ℚ)
  | obj (kvs : List (Str × GoValue))
  | arr (xs : List GoValue)
  | null

/-- Model of the Go conversion `int64(f)` applied to a float64 holding the
exact rational value `q`: truncation toward zero. -/
def goInt64OfFloat (q : ℚ) : Int := q.num.tdiv q.den

mutual
/-- `toAttributeValue` (authz.go): converts a Go value from JSON
unmarshalling to an AVP AttributeValue. The `case float64` arm of the Go
switch converts via `int64(val)`. -/
def toAttributeValue : GoValue → Option AttributeValue
  | .str s => some (.string s)
  | .boolean b => some (.boolean b)
  | .num q => some (.long (goInt64OfFloat q))
  | .obj kvs => some (.record (toAttrEntries kvs))
  | .arr xs => some (.set (toAttrElems xs))
  | .null => none
/-- The record loop of `toAttributeValue`: entries whose value converts to
nil are skipped. -/
def toAttrEntries : List (Str × GoValue) → List (Str × AttributeValue)
  | [] => []
  | (k, v) :: t =>
    match toAttributeValue v with
    | some av => (k, av) :: toAttrEntries t
    | none => toAttrEntries t
/-- The set loop of `toAttributeValue`: elements that convert to nil are
skipped. -/
def toAttrElems : List GoValue → List AttributeValue
  | [] => []
  | v :: t =>
    match toAttributeValue v with
    | some av => av :: toAttrElems t
    | none => toAttrElems t
end

/-- `AuthzRequest` (authz.go). -/
structure AuthzRequest where
  accountID : Str
  callerARN : Str
  action : Str
  resource : Str
  resourceTags : List (Str × Str)
  requestTags : List (Str × Str)
  context : List (Str × GoValue)

/-- AVP entity item (`avptypes.EntityItem`); a Go nil attribute map is
modelled as the empty list. -/
structure EntityItem where
  identifier : EntityIdentifier
  attributes : List (Str × AttributeValue)

/-- AVP `IsAuthorizedInput`. The Go struct holds pointers that
`buildAVPRequest` always populates, so the model makes the fields plain. -/
structure IsAuthorizedInput where
  policyStoreId : Str
  principal : EntityIdentifier
  action : ActionIdentifier
  resource : EntityIdentifier
  context : List (Str × AttributeValue)
  entities : List EntityItem

/-- AVP decision. -/
inductive AVPDecision where
  | allow
  | deny
deriving DecidableEq

/-- `authorizerImpl.buildAVPRequest` (authz.go): builds the AVP
`IsAuthorized` query from the request, the caller group memberships and the
account policy store id. -/
def buildAVPRequest (req : AuthzRequest) (groups : List Str) (policyStoreID : Str) :
    IsAuthorizedInput :=
  let principal : EntityIdentifier := ⟨"ROSA::Principal".data, req.callerARN⟩
  let action : ActionIdentifier := ⟨"ROSA::Action".data, req.action⟩
  let resource : EntityIdentifier := ⟨"ROSA::Resource".data, req.resource⟩
  let contextMap : List (Str × AttributeValue) :=
    [("principalArn".data, .string req.callerARN),
     ("principalAccount".data, .string req.accountID)]
    ++ (if req.requestTags.length > 0 then
          [("requestTags".data, .record (req.requestTags.map fun kv => (kv.1, .string kv.2)))]
        else [])
    ++ (if req.requestTags.length > 0 then
          [("tagKeys".data, .set (req.requestTags.map fun kv => .string kv.1))]
        else [])
    ++ req.context.filterMap fun kv => (toAttributeValue kv.2).map fun av => (kv.1, av)
  let entities : List EntityItem :=
    ⟨principal, []⟩
    :: groups.map (fun groupID => ⟨⟨"ROSA::Group".data, groupID⟩, []⟩)
    ++ (if req.resourceTags.length > 0 then
          [⟨resource, [("tags".data, .record (req.resourceTags.map fun kv => (kv.1, .string kv.2)))]⟩]
        else [])
  { policyStoreId := policyStoreID
    principal := principal
    action := action
    resource := resource
    context := contextMap
    entities := entities }

/-- `store.Account` (store/accounts.go): an enabled account in the
authorization system. -/
structure Account where
  accountID : Str
  policyStoreID : Str
  privileged : Bool
  createdAt : Str
  createdBy : Str
deriving DecidableEq

/-- The external calls `authorizerImpl.Authorize` performs, in dependency
form: the privileged check, the account record lookup, the admin lookup, the
group-membership lookup, and the policy-engine query. An `Except` error is a
non-nil Go error. -/
structure AuthzDeps where
  isPrivileged : Str → Except Str Bool
  getAccount : Str → Except Str (Option Account)
  isAdmin : Str → Str → Except Str Bool
  getUserGroups : Str → Str → Except Str (List Str)
  avpIsAuthorized : IsAuthorizedInput → Except Str AVPDecision

/-- `authorizerImpl.Authorize` (authz.go): the layered decision pipeline,
returning the `(bool, error)` pair of the Go function with the error as its
message. -/
def Authorize (d : AuthzDeps) (req : AuthzRequest) : Bool × Option Str :=
  match d.isPrivileged req.accountID with
  | .error e => (false, some e)
  | .ok isPriv =>
    if isPriv then (true, none)
    else
      match d.getAccount req.accountID with
      | .error e => (false, some ("failed to get account: ".data ++ e))
      | .ok none => (false, some ("account not provisioned: ".data ++ req.accountID))
      | .ok (some account) =>
        match d.isAdmin req.accountID req.callerARN with
        | .error e => (false, some e)
        | .ok true => (true, none)
        | .ok false =>
          match d.getUserGroups req.accountID req.callerARN with
          | .error e => (false, some ("failed to get user groups: ".data ++ e))
          | .ok groups =>
            match d.avpIsAuthorized (buildAVPRequest req groups account.policyStoreID) with
            | .error e => (false, some ("authorization check failed: ".data ++ e))
            | .ok decision => (decide (decision = AVPDecision.allow), none)

/-- C1: `Authorize` evaluates the layered pipeline strictly in order with
short-circuiting. For every choice of dependencies: a privileged account
yields Allow regardless of the account record, admin set or policy engine; a
non-privileged account without a record yields the account-not-provisioned
error; an admin caller yields Allow regardless of the policy engine; otherwise
the engine decision is returned; and whenever the pipeline returns an error
the decision component is refusal (`false`), never Allow. -/
theorem c1_authorize_pipeline (d : AuthzDeps) (req : AuthzRequest) :
    (d.isPrivileged req.accountID = .ok true → Authorize d req = (true, none)) ∧
    (d.isPrivileged req.accountID = .ok false → d.getAccount req.accountID = .ok none →
      Authorize d req = (false, some ("account not provisioned: ".data ++ req.accountID))) ∧
    (∀ a, d.isPrivileged req.accountID = .ok false →
      d.getAccount req.accountID = .ok (some a) →
      d.isAdmin req.accountID req.callerARN = .ok true →
      Authorize d req = (true, none)) ∧
    (∀ a gs r, d.isPrivileged req.accountID = .ok false →
      d.getAccount req.accountID = .ok (some a) →
      d.isAdmin req.accountID req.callerARN = .ok false →
      d.getUserGroups req.accountID req.callerARN = .ok gs →
      d.avpIsAuthorized (buildAVPRequest req gs a.policyStoreID) = .ok r →
      Authorize d req = (decide (r = AVPDecision.allow), none)) ∧
    (∀ e, (Authorize d req).2 = some e → (Authorize d req).1 = false) := by
  refine ⟨?_, ?_, ?_, ?_, ?_⟩
  · intro h; simp [Authorize, h]
  · intro h1 h2; simp [Authorize, h1, h2]
  · intro a h1 h2 h3; simp [Authorize, h1, h2, h3]
  · intro a gs r h1 h2 h3 h4 h5; simp [Authorize, h1, h2, h3, h4, h5]
  · intro e
    unfold Authorize
    cases hp : d.isPrivileged req.accountID with
    | error e1 => simp [hp]
    | ok b =>
      cases b with
      | true => simp [hp]
      | false =>
        cases hg : d.getAccount req.accountID with
        | error e2 => simp [hp, hg]
        | ok oa =>
          cases oa with
          | none => simp [hp, hg]
          | some a =>
            cases ha : d.isAdmin req.accountID req.callerARN with
            | error e3 => simp [hp, hg, ha]
            | ok b3 =>
              cases b3 with
              | true => simp [hp, hg, ha]
              | false =>
                cases hu : d.getUserGroups req.accountID req.callerARN with
                | error e4 => simp [hp, hg, ha, hu]
                | ok gs =>
                  cases hv : d.avpIsAuthorized (buildAVPRequest req gs a.policyStoreID) with
                  | error e5 => simp [hp, hg, ha, hu, hv]
                  | ok r => simp [hp, hg, ha, hu, hv]

/-- A concrete account used to exercise the pipeline. -/
def exAccount : Account :=
  ⟨"111111111111".data, "ps-1".data, false, [], []⟩

/-- Concrete pipeline dependencies: one privileged account, one provisioned
account with one admin, a denying policy engine. -/
def exDeps : AuthzDeps :=
  { isPrivileged := fun aid => .ok (decide (aid = "000000000000".data))
    getAccount := fun aid => .ok (if aid = "111111111111".data then some exAccount else none)
    isAdmin := fun _ arn => .ok (decide (arn = "arn:aws:iam::111111111111:user/a".data))
    getUserGroups := fun _ _ => .ok ["g1".data]
    avpIsAuthorized := fun _ => .ok .deny }

/-- A concrete authorization request. -/
def exReq (aid arn : Str) : AuthzRequest :=
  ⟨aid, arn, "rosa:DescribeCluster".data, "*".data, [], [], []⟩

theorem c1_authorize_pipeline_witness :
    Authorize exDeps (exReq "000000000000".data "u".data) = (true, none) ∧
    Authorize exDeps (exReq "222222222222".data "u".data) =
      (false, some ("account not provisioned: ".data ++ "222222222222".data)) ∧
    Authorize exDeps
      (exReq "111111111111".data "arn:aws:iam::111111111111:user/a".data) = (true, none) ∧
    Authorize exDeps (exReq "111111111111".data "u".data) = (false, none) :=
  ⟨(c1_authorize_pipeline exDeps _).1 rfl,
   (c1_authorize_pipeline exDeps _).2.1 rfl rfl,
   (c1_authorize_pipeline exDeps _).2.2.1 exAccount rfl rfl rfl,
   (c1_authorize_pipeline exDeps (exReq "111111111111".data "u".data)).2.2.2.1
     exAccount ["g1".data] .deny rfl rfl rfl rfl rfl⟩

/-! ## The cedar-agent (local evaluator) backend (pkg/authz/client/dynamodb.go) -/

/-- Values of the cedar-agent JSON request (`any` values produced by
`convertAttributeValue`). -/
inductive CedarVal where
  | str (s : Str)
  | int (n : Int)
  | boolean (b : Bool)
  | arr (xs : List CedarVal)
  | obj (kvs : List (Str × CedarVal))

mutual
/-- `convertAttributeValue` (dynamodb.go): converts an AVP AttributeValue to
a plain Go value for the cedar-agent request body. -/
def convertAttributeValue : AttributeValue → CedarVal
  | .string s => .str s
  | .long n => .int n
  | .boolean b => .boolean b
  | .set xs => .arr (convertAttrElems xs)
  | .record kvs => .obj (convertAttrEntries kvs)
/-- Element loop of `convertAttributeValue`. -/
def convertAttrElems : List AttributeValue → List CedarVal
  | [] => []
  | v :: t => convertAttributeValue v :: convertAttrElems t
/-- Entry loop of `convertAttributeValue`. -/
def convertAttrEntries : List (Str × AttributeValue) → List (Str × CedarVal)
  | [] => []
  | (k, v) :: t => (k, convertAttributeValue v) :: convertAttrEntries t
end

/-- A cedar-agent entity record: uid, attribute map, parent uids. -/
structure CedarEntity where
  uid : Str
  attrs : List (Str × CedarVal)
  parents : List Str

/-- The cedar-agent `is_authorized` request body. `buildAVPRequest` always
populates the principal/action/resource pointers of the AVP input, so the
corresponding nil-guards of the Go converter always take the non-nil branch
and the model makes the fields plain. -/
structure CedarAgentRequest where
  principal : Str
  action : Str
  resource : Str
  context : List (Str × CedarVal)
  entities : List CedarEntity

/-- `fmt.Sprintf("%s::\"%s\"", ty, id)`: a quoted cedar entity uid. -/
def quoteUID (ty id : Str) : Str :=
  ty ++ ':' :: ':' :: '"' :: id ++ ['"']

/-- `MockAVPClient.buildCedarAgentRequest` (dynamodb.go): converts an AVP
`IsAuthorizedInput` to the cedar-agent request format. The action name is
passed through `strings.TrimPrefix(actionID, "rosa:")`. -/
def buildCedarAgentRequest (params : IsAuthorizedInput) : CedarAgentRequest :=
  let principalUID := quoteUID params.principal.entityType params.principal.entityId
  let actionID := goTrimPre params.action.actionId "rosa:".data
  let action := quoteUID "ROSA::Action".data actionID
  let resourceUID := quoteUID params.resource.entityType params.resource.entityId
  let context := params.context.map fun kv => (kv.1, convertAttributeValue kv.2)
  let groupUIDs := params.entities.filterMap fun e =>
    if e.identifier.entityType = "ROSA::Group".data ∨ e.identifier.entityType = "Group".data then
      some (quoteUID e.identifier.entityType e.identifier.entityId)
    else none
  let groupEntities := groupUIDs.map fun uid => CedarEntity.mk uid [] []
  let resourceEntities := params.entities.filterMap fun e =>
    if e.attributes.isEmpty = false ∧
        (e.identifier.entityType = "ROSA::Resource".data ∨
         e.identifier.entityType = "Resource".data) then
      some (CedarEntity.mk (quoteUID e.identifier.entityType e.identifier.entityId)
        ((e.attributes.map fun kv => (kv.1, convertAttributeValue kv.2))
          ++ [("arn".data, .str e.identifier.entityId)]) [])
    else none
  let principalEntities :=
    if groupUIDs ≠ [] then [CedarEntity.mk principalUID [] groupUIDs] else []
  let fallbackResource :=
    if resourceEntities.isEmpty then
      [CedarEntity.mk resourceUID [("arn".data, .str params.resource.entityId)] []]
    else []
  { principal := principalUID
    action := action
    resource := resourceUID
    context := context
    entities := groupEntities ++ resourceEntities ++ principalEntities ++ fallbackResource }

/-- A concrete request whose action carries the `rosa:` prefix. -/
def c2Req : AuthzRequest :=
  ⟨"111111111111".data, "arn:aws:iam::111111111111:user/u".data,
   "rosa:CreateCluster".data, "*".data, [], [], []⟩

/-- C2 (counterexample): the query the pipeline issues to the hosted AVP
backend carries the action name unchanged — for the action
`rosa:CreateCluster` the action entity still carries the `rosa:` prefix and is
not the stripped name, so the stripping does not happen for every supported
policy-engine backend. -/
theorem c2_counterexample :
    (buildAVPRequest c2Req [] "ps-1".data).action.actionId = "rosa:CreateCluster".data ∧
    (buildAVPRequest c2Req [] "ps-1".data).action.actionId ≠ "CreateCluster".data := by
  exact ⟨rfl, by decide⟩

/-- C2 (amended): the `rosa:` prefix is stripped from the action name only in
the cedar-agent (local mock) backend: the AVP query built by the decision
pipeline carries the action name unchanged, and the cedar-agent request
derived from it carries the action with the prefix removed. -/
theorem c2_prefix_stripping (req : AuthzRequest) (groups : List Str) (ps : Str) :
    (buildAVPRequest req groups ps).action.actionId = req.action ∧
    (∀ rest, req.action = "rosa:".data ++ rest →
      (buildCedarAgentRequest (buildAVPRequest req groups ps)).action =
        quoteUID "ROSA::Action".data rest) := by
  constructor
  · rfl
  · intro rest h
    unfold buildCedarAgentRequest
    simp only [buildAVPRequest]
    rw [h, goTrimPre_append]

theorem c2_prefix_stripping_witness :
    (buildAVPRequest c2Req [] "ps-1".data).action.actionId = c2Req.action ∧
    c2Req.action = "rosa:".data ++ "CreateCluster".data ∧
    (buildCedarAgentRequest (buildAVPRequest c2Req [] "ps-1".data)).action =
      quoteUID "ROSA::Action".data "CreateCluster".data :=
  ⟨(c2_prefix_stripping c2Req [] "ps-1".data).1, rfl,
   (c2_prefix_stripping c2Req [] "ps-1".data).2 "CreateCluster".data rfl⟩

/-! ## C3: value coercion into engine attributes -/

/-- The record loop of `toAttributeValue` keeps exactly the entries whose
value converts, in order. -/
theorem toAttrEntries_eq_filterMap (kvs : List (Str × GoValue)) :
    toAttrEntries kvs =
      kvs.filterMap fun kv => (toAttributeValue kv.2).map fun av => (kv.1, av) := by
  induction kvs with
  | nil => rfl
  | cons kv t ih =>
    rcases kv with ⟨k, v⟩
    rw [toAttrEntries]
    cases h : toAttributeValue v <;> simp [h, ih]

/-- The set loop of `toAttributeValue` keeps exactly the elements that
convert, in order. -/
theorem toAttrElems_eq_filterMap (xs : List GoValue) :
    toAttrElems xs = xs.filterMap toAttributeValue := by
  induction xs with
  | nil => rfl
  | cons v t ih =>
    rw [toAttrElems]
    cases h : toAttributeValue v <;> simp [h, ih]

/-- C3 (counterexample): the non-whole numeric value 5/2 is not dropped by
the coercion — it is converted to `long 2` by truncation toward zero. -/
theorem c3_counterexample :
    toAttributeValue (.num (mkRat 5 2)) = some (.long 2) ∧
    toAttributeValue (.num (mkRat 5 2)) ≠ none ∧
    (mkRat 5 2).den ≠ 1 := by
  refine ⟨rfl, ?_, by decide⟩
  rw [show toAttributeValue (.num (mkRat 5 2)) = some (.long 2) from rfl]
  exact Option.some_ne_none _

/-- C3 (amended): the coercion maps strings to string, booleans to boolean,
every numeric value to long by truncation toward zero — in particular a
whole-valued numeric maps to the corresponding integer —, objects to record
and arrays to set recursively with non-converting entries removed, and drops
exactly the null value. -/
theorem c3_value_coercion :
    (∀ s, toAttributeValue (.str s) = some (.string s)) ∧
    (∀ b, toAttributeValue (.boolean b) = some (.boolean b)) ∧
    (∀ q : ℚ, toAttributeValue (.num q) = some (.long (goInt64OfFloat q))) ∧
    (∀ n : ℤ, goInt64OfFloat (n : ℚ) = n) ∧
    (∀ kvs, toAttributeValue (.obj kvs) =
      some (.record (kvs.filterMap fun kv =>
        (toAttributeValue kv.2).map fun av => (kv.1, av)))) ∧
    (∀ xs, toAttributeValue (.arr xs) = some (.set (xs.filterMap toAttributeValue))) ∧
    (∀ v, toAttributeValue v = none ↔ v = .null) := by
  refine ⟨fun s => rfl, fun b => rfl, fun q => rfl, ?_, ?_, ?_, ?_⟩
  · intro n
    simp [goInt64OfFloat]
  · intro kvs
    rw [toAttributeValue, toAttrEntries_eq_filterMap]
  · intro xs
    rw [toAttributeValue, toAttrElems_eq_filterMap]
  · intro v
    cases v <;> simp [toAttributeValue]

/-! ## Group membership store (pkg/authz/store/members.go) -/

/-- `store.GroupMember` (members.go): one membership row. The composite
attributes `groupId#memberArn` and `accountId#memberArn` are always derived
from the plain fields by `Add`, so the model computes them. -/
structure GroupMember where
  accountID : Str
  groupID : Str
  memberARN : Str
  addedAt : Str
deriving DecidableEq

/-- The composite sort key `groupId#memberArn`. -/
def GroupMember.sortKey (r : GroupMember) : Str := r.groupID ++ '#' :: r.memberARN

/-- The GSI partition key `accountId#memberArn` (member-groups-index). -/
def GroupMember.gsiKey (r : GroupMember) : Str := r.accountID ++ '#' :: r.memberARN

/-- The members table. Row order is not semantic (DynamoDB tables are sets of
items keyed by `(accountId, groupId#memberArn)`). -/
abbrev MembersTable := List GroupMember

/-- `MemberStore.Add` (members.go): an unconditional `PutItem`, which
overwrites any row with the same `(accountId, groupId#memberArn)` key. -/
def memberAdd (tbl : MembersTable) (aid gid arn now : Str) : MembersTable :=
  (tbl.filter fun r => !decide (r.accountID = aid ∧ r.sortKey = gid ++ '#' :: arn)) ++
    [⟨aid, gid, arn, now⟩]

/-- `MemberStore.Remove` (members.go): `DeleteItem` by key; deleting an
absent key succeeds as a no-op. -/
def memberRemove (tbl : MembersTable) (aid gid arn : Str) : MembersTable :=
  tbl.filter fun r => !decide (r.accountID = aid ∧ r.sortKey = gid ++ '#' :: arn)

/-- `MemberStore.ListGroupMembers` (members.go): query
`accountId = :aid AND begins_with(groupId#memberArn, :gid + "#")`, returning
the `memberArn` attributes. -/
def listGroupMembers (tbl : MembersTable) (aid gid : Str) : List Str :=
  (tbl.filter fun r =>
    decide (r.accountID = aid) && (gid ++ ['#']).isPrefixOf r.sortKey).map (·.memberARN)

/-- `MemberStore.GetUserGroups` (members.go): query the member-groups-index
GSI for `accountId#memberArn = aid + "#" + arn`, returning the `groupId`
attributes. -/
def getUserGroups (tbl : MembersTable) (aid arn : Str) : List Str :=
  (tbl.filter fun r => decide (r.gsiKey = aid ++ '#' :: arn)).map (·.groupID)

/-- `MemberStore.RemoveAllGroupMembers` (members.go): enumerate the members
of the group, then remove each row in turn. -/
def removeAllGroupMembers (tbl : MembersTable) (aid gid : Str) : MembersTable :=
  (listGroupMembers tbl aid gid).foldl (fun t arn => memberRemove t aid gid arn) tbl

/-- `store.Group` (the group store): a group row. The name `Group` is taken
by Mathlib, so the model calls the row type `GroupRow`. -/
structure GroupRow where
  accountID : Str
  groupID : Str
  name : Str
  description : Str
  createdAt : Str
deriving DecidableEq

/-- The groups table, keyed by `(accountId, groupId)`. -/
abbrev GroupsTable := List GroupRow

/-- `GroupStore.Create`: an unconditional `PutItem` with a freshly generated
`groupId`; the model receives the generated uuid and the timestamp as
arguments. -/
def groupCreate (tbl : GroupsTable) (aid gid name desc now : Str) : GroupsTable × GroupRow :=
  let g : GroupRow := ⟨aid, gid, name, desc, now⟩
  ((tbl.filter fun r => !decide (r.accountID = aid ∧ r.groupID = gid)) ++ [g], g)

/-- `GroupStore.Delete`: `DeleteItem` by key. -/
def groupDelete (tbl : GroupsTable) (aid gid : Str) : GroupsTable :=
  tbl.filter fun r => !decide (r.accountID = aid ∧ r.groupID = gid)

/-- `GroupStore.List`: query by `accountId`. -/
def listGroups (tbl : GroupsTable) (aid : Str) : List GroupRow :=
  tbl.filter fun r => decide (r.accountID = aid)

/-- The store state `authorizerImpl.DeleteGroup` acts on. -/
structure GroupsAndMembers where
  groups : GroupsTable
  members : MembersTable

/-- `authorizerImpl.DeleteGroup` (authz.go): first remove all members, then
delete the group record. -/
def DeleteGroup (st : GroupsAndMembers) (aid gid : Str) : GroupsAndMembers :=
  { groups := groupDelete st.groups aid gid
    members := removeAllGroupMembers st.members aid gid }

/-- On `#`-free components, `a#x = b#y` splits into `a = b` and `x = y`. -/
theorem hash_key_inj (a b x y : Str) (ha : '#' ∉ a) (hb : '#' ∉ b) :
    a ++ '#' :: x = b ++ '#' :: y ↔ a = b ∧ x = y := by
  constructor
  · intro h
    induction a generalizing b with
    | nil =>
      cases b with
      | nil => simpa using h
      | cons d b' =>
        simp only [List.nil_append, List.cons_append, List.cons.injEq] at h
        exact absurd (h.1 ▸ List.mem_cons_self d b') hb
    | cons c a' ih =>
      cases b with
      | nil =>
        simp only [List.cons_append, List.nil_append, List.cons.injEq] at h
        exact absurd (h.1 ▸ List.mem_cons_self c a') ha
      | cons d b' =>
        simp only [List.cons_append, List.cons.injEq] at h
        have ha' : '#' ∉ a' := fun hm => ha (List.mem_cons_of_mem c hm)
        have hb' : '#' ∉ b' := fun hm => hb (List.mem_cons_of_mem d hm)
        have h2 := ih b' ha' hb' h.2
        exact ⟨by rw [h.1, h2.1], h2.2⟩
  · rintro ⟨rfl, rfl⟩; rfl

/-- On `#`-free components, `g#` is a prefix of `gid#arn` exactly when
`g = gid`. -/
theorem hash_pre_iff (g gid arn : Str) (hg : '#' ∉ g) (hgid : '#' ∉ gid) :
    (g ++ ['#']).isPrefixOf (gid ++ '#' :: arn) = true ↔ g = gid := by
  rw [List.isPrefixOf_iff_prefix]
  constructor
  · intro h
    induction g generalizing gid with
    | nil =>
      cases gid with
      | nil => rfl
      | cons d b' =>
        simp only [List.nil_append, List.cons_append, List.cons_prefix_cons] at h
        exact absurd (h.1 ▸ List.mem_cons_self d b') hgid
    | cons c a' ih =>
      cases gid with
      | nil =>
        simp only [List.cons_append, List.nil_append, List.cons_prefix_cons] at h
        exact absurd (h.1 ▸ List.mem_cons_self c a') hg
      | cons d b' =>
        simp only [List.cons_append, List.cons_prefix_cons] at h
        have ha' : '#' ∉ a' := fun hm => hg (List.mem_cons_of_mem c hm)
        have hb' : '#' ∉ b' := fun hm => hgid (List.mem_cons_of_mem d hm)
        rw [h.1, ih b' ha' hb' h.2]
  · rintro rfl
    have h2 : g ++ '#' :: arn = (g ++ ['#']) ++ arn := by simp
    rw [h2]
    exact (g ++ ['#']).prefix_append arn

/-- `g#` leads `g#arn`. -/
theorem pre_self_key (g arn : Str) :
    (g ++ ['#']).isPrefixOf (g ++ '#' :: arn) = true := by
  rw [List.isPrefixOf_iff_prefix]
  have h2 : g ++ '#' :: arn = (g ++ ['#']) ++ arn := by simp
  rw [h2]
  exact (g ++ ['#']).prefix_append arn

/-- C8: for `#`-free identifiers (account ids are digits, group ids are
uuids), after `AddMember(g, p)` both `ListGroupMembers(g)` contains `p` and
`GetUserGroups(p)` contains `g`; after `RemoveMember(g, p)` neither does;
repeating `AddMember` on the same pair leaves the table as a single add
would (idempotence); and `RemoveMember` of an absent member is the
identity — a no-op rather than an error. -/
theorem c8_membership_roundtrip (tbl : MembersTable) (aid g p t1 t2 : Str)
    (haid : '#' ∉ aid) (hg : '#' ∉ g)
    (htbl : ∀ r ∈ tbl, '#' ∉ r.accountID ∧ '#' ∉ r.groupID) :
    p ∈ listGroupMembers (memberAdd tbl aid g p t1) aid g ∧
    g ∈ getUserGroups (memberAdd tbl aid g p t1) aid p ∧
    p ∉ listGroupMembers (memberRemove tbl aid g p) aid g ∧
    g ∉ getUserGroups (memberRemove tbl aid g p) aid p ∧
    memberAdd (memberAdd tbl aid g p t1) aid g p t2 = memberAdd tbl aid g p t2 ∧
    ((∀ r ∈ tbl, ¬(r.accountID = aid ∧ r.sortKey = g ++ '#' :: p)) →
      memberRemove tbl aid g p = tbl) := by
  refine ⟨?_, ?_, ?_, ?_, ?_, ?_⟩
  · refine List.mem_map.mpr ⟨⟨aid, g, p, t1⟩, ?_, rfl⟩
    rw [List.mem_filter]
    refine ⟨by simp [memberAdd], ?_⟩
    simp [GroupMember.sortKey, pre_self_key]
  · refine List.mem_map.mpr ⟨⟨aid, g, p, t1⟩, ?_, rfl⟩
    rw [List.mem_filter]
    refine ⟨by simp [memberAdd], ?_⟩
    simp [GroupMember.gsiKey]
  · intro hmem
    obtain ⟨r, hr, hrp⟩ := List.mem_map.mp hmem
    rw [List.mem_filter] at hr
    obtain ⟨hrm, hcond⟩ := hr
    rw [memberRemove, List.mem_filter] at hrm
    obtain ⟨hrtbl, hkeep⟩ := hrm
    simp only [Bool.and_eq_true, decide_eq_true_eq] at hcond
    have hrg : '#' ∉ r.groupID := (htbl r hrtbl).2
    have : g = r.groupID := by
      have := hcond.2
      rw [GroupMember.sortKey] at this
      exact (hash_pre_iff g r.groupID r.memberARN hg hrg).mp this
    have hkey : r.accountID = aid ∧ r.sortKey = g ++ '#' :: p := by
      refine ⟨hcond.1, ?_⟩
      rw [GroupMember.sortKey, ← this, hrp]
    simp [hkey] at hkeep
  · intro hmem
    obtain ⟨r, hr, hrg⟩ := List.mem_map.mp hmem
    rw [List.mem_filter] at hr
    obtain ⟨hrm, hcond⟩ := hr
    rw [memberRemove, List.mem_filter] at hrm
    obtain ⟨hrtbl, hkeep⟩ := hrm
    simp only [decide_eq_true_eq] at hcond
    rw [GroupMember.gsiKey] at hcond
    have hra : '#' ∉ r.accountID := (htbl r hrtbl).1
    obtain ⟨h1, h2⟩ := (hash_key_inj r.accountID aid r.memberARN p hra haid).mp hcond
    have hkey : r.accountID = aid ∧ r.sortKey = g ++ '#' :: p := by
      refine ⟨h1, ?_⟩
      rw [GroupMember.sortKey, hrg, h2]
    simp [hkey] at hkeep
  · have hrow : ∀ t : Str,
        (decide ((⟨aid, g, p, t⟩ : GroupMember).accountID = aid ∧
          (⟨aid, g, p, t⟩ : GroupMember).sortKey = g ++ '#' :: p)) = true := by
      intro t; simp [GroupMember.sortKey]
    simp [memberAdd, List.filter_append, List.filter_filter, GroupMember.sortKey,
      Bool.and_self]
  · intro hnone
    apply List.filter_eq_self.mpr
    intro r hr
    have hno := hnone r hr
    simp only [Bool.not_eq_true', decide_eq_false_iff_not]
    exact hno

/-- A one-row members table for exercising C8. -/
def c8Tbl : MembersTable := [⟨"a".data, "g2".data, "u2".data, []⟩]

theorem c8_membership_roundtrip_witness :
    memberRemove c8Tbl "a".data "g1".data "arn:u".data = c8Tbl ∧
    "arn:u".data ∈
      listGroupMembers (memberAdd c8Tbl "a".data "g1".data "arn:u".data []) "a".data "g1".data ∧
    "g1".data ∈
      getUserGroups (memberAdd c8Tbl "a".data "g1".data "arn:u".data []) "a".data "arn:u".data ∧
    "arn:u".data ∉
      listGroupMembers (memberRemove c8Tbl "a".data "g1".data "arn:u".data) "a".data "g1".data ∧
    memberAdd (memberAdd c8Tbl "a".data "g1".data "arn:u".data []) "a".data "g1".data
        "arn:u".data [] =
      memberAdd c8Tbl "a".data "g1".data "arn:u".data [] :=
  have h := c8_membership_roundtrip c8Tbl "a".data "g1".data "arn:u".data [] []
    (by decide) (by decide) (by decide)
  ⟨h.2.2.2.2.2 (by decide), h.1, h.2.1, h.2.2.1, h.2.2.2.2.1⟩

/-- Removing the enumerated members one by one clears every membership row of
the group: after the fold, listing the group's members finds nothing, as long
as the enumeration covered every matching row. -/
theorem removeAll_clears (aid gid : Str) (hgid : '#' ∉ gid) :
    ∀ (arns : List Str) (tbl : MembersTable),
      (∀ r ∈ tbl, '#' ∉ r.groupID) →
      (∀ r ∈ tbl, r.accountID = aid →
        (gid ++ ['#']).isPrefixOf r.sortKey = true → r.memberARN ∈ arns) →
      listGroupMembers (arns.foldl (fun t arn => memberRemove t aid gid arn) tbl) aid gid
        = [] := by
  intro arns
  induction arns with
  | nil =>
    intro tbl hh hcov
    simp only [List.foldl_nil]
    rw [listGroupMembers]
    have hnil : tbl.filter
        (fun r => decide (r.accountID = aid) && (gid ++ ['#']).isPrefixOf r.sortKey) = [] := by
      rw [List.filter_eq_nil_iff]
      intro r hr
      intro hcontra
      simp only [Bool.and_eq_true, decide_eq_true_eq] at hcontra
      exact absurd (hcov r hr hcontra.1 hcontra.2) (List.not_mem_nil r.memberARN)
    rw [hnil]
    rfl
  | cons arn rest ih =>
    intro tbl hh hcov
    simp only [List.foldl_cons]
    apply ih
    · intro r hr
      exact hh r (List.mem_of_mem_filter hr)
    · intro r hr hacc hpre
      have hrtbl : r ∈ tbl := List.mem_of_mem_filter hr
      have hmem := hcov r hrtbl hacc hpre
      rcases List.mem_cons.mp hmem with heq | hmemr
      · exfalso
        have hrg : '#' ∉ r.groupID := hh r hrtbl
        have hgeq : gid = r.groupID := by
          apply (hash_pre_iff gid r.groupID r.memberARN hgid hrg).mp
          simpa only [GroupMember.sortKey] using hpre
        rw [memberRemove, List.mem_filter] at hr
        have hkeep := hr.2
        simp [GroupMember.sortKey, hacc, heq, ← hgeq] at hkeep
      · exact hmemr

/-- After deleting a group by key, no listed group of the account carries
that group id. -/
theorem listGroups_groupDelete_ne (tbl : GroupsTable) (aid gid : Str) :
    ∀ g' ∈ listGroups (groupDelete tbl aid gid) aid, g'.groupID ≠ gid := by
  intro g' hg'
  rw [listGroups, List.mem_filter] at hg'
  obtain ⟨hmem, hacc⟩ := hg'
  rw [groupDelete, List.mem_filter] at hmem
  have hkeep := hmem.2
  simp only [decide_eq_true_eq] at hacc
  intro hcontra
  simp [hacc, hcontra] at hkeep

/-- `RemoveAllGroupMembers` leaves no member observable for the group. -/
theorem listGroupMembers_removeAll (tbl : MembersTable) (aid gid : Str)
    (hgid : '#' ∉ gid) (hh : ∀ r ∈ tbl, '#' ∉ r.groupID) :
    listGroupMembers (removeAllGroupMembers tbl aid gid) aid gid = [] := by
  rw [removeAllGroupMembers]
  apply removeAll_clears aid gid hgid _ tbl hh
  intro r hr hacc hpre
  exact List.mem_map.mpr ⟨r, List.mem_filter.mpr ⟨hr, by simp [hacc, hpre]⟩, rfl⟩

/-- C9: `DeleteGroup` removes every membership row of the group (enumerating
them first) and then deletes the group record: afterwards — in particular
after `CreateGroup` followed by `DeleteGroup` — the group is not observable
via `ListGroups` and no member of it is observable via `ListGroupMembers`
(group ids are `#`-free uuids). -/
theorem c9_delete_group_cascade (st : GroupsAndMembers) (aid gid : Str)
    (hgid : '#' ∉ gid) (hmem : ∀ r ∈ st.members, '#' ∉ r.groupID) :
    (∀ g' ∈ listGroups (DeleteGroup st aid gid).groups aid, g'.groupID ≠ gid) ∧
    listGroupMembers (DeleteGroup st aid gid).members aid gid = [] ∧
    (∀ name desc now,
      (∀ g' ∈ listGroups
          (DeleteGroup ⟨(groupCreate st.groups aid gid name desc now).1, st.members⟩
            aid gid).groups aid,
        g'.groupID ≠ gid) ∧
      listGroupMembers
        (DeleteGroup ⟨(groupCreate st.groups aid gid name desc now).1, st.members⟩
          aid gid).members aid gid = []) := by
  refine ⟨listGroups_groupDelete_ne st.groups aid gid,
    listGroupMembers_removeAll st.members aid gid hgid hmem, ?_⟩
  intro name desc now
  exact ⟨listGroups_groupDelete_ne _ aid gid,
    listGroupMembers_removeAll st.members aid gid hgid hmem⟩

/-- A concrete state for exercising C9: one group with one member, plus an
unrelated group membership. -/
def c9St : GroupsAndMembers :=
  { groups := [⟨"a".data, "g1".data, "n".data, [], []⟩]
    members := [⟨"a".data, "g1".data, "u1".data, []⟩, ⟨"a".data, "g2".data, "u2".data, []⟩] }

theorem c9_delete_group_cascade_witness :
    (∀ g' ∈ listGroups (DeleteGroup c9St "a".data "g1".data).groups "a".data,
      g'.groupID ≠ "g1".data) ∧
    listGroupMembers (DeleteGroup c9St "a".data "g1".data).members "a".data "g1".data = [] :=
  have h := c9_delete_group_cascade c9St "a".data "g1".data (by decide) (by decide)
  ⟨h.1, h.2.1⟩

/-! ## Mock policy engine state (MockAVPClient, dynamodb.go) -/

/-- Association-list lookup, modelling a Go map read. -/
def lookupA {α : Type} (l : List (Str × α)) (k : Str) : Option α :=
  (l.find? fun kv => decide (kv.1 = k)).map (·.2)

/-- Association-list insert, modelling a Go map assignment. -/
def insertA {α : Type} (l : List (Str × α)) (k : Str) (v : α) : List (Str × α) :=
  (l.filter fun kv => !decide (kv.1 = k)) ++ [(k, v)]

/-- Association-list erase, modelling a Go map delete. -/
def eraseA {α : Type} (l : List (Str × α)) (k : Str) : List (Str × α) :=
  l.filter fun kv => !decide (kv.1 = k)

theorem lookupA_eraseA {α : Type} (l : List (Str × α)) (k : Str) :
    lookupA (eraseA l k) k = none := by
  have h : (eraseA l k).find? (fun kv => decide (kv.1 = k)) = none := by
    rw [List.find?_eq_none]
    intro kv hkv
    rw [eraseA, List.mem_filter] at hkv
    simpa using hkv.2
  rw [lookupA, h]
  rfl

theorem lookupA_insertA {α : Type} (l : List (Str × α)) (k : Str) (v : α) :
    lookupA (insertA l k v) k = some v := by
  rw [lookupA, insertA, List.find?_append]
  have h1 : (l.filter fun kv => !decide (kv.1 = k)).find? (fun kv => decide (kv.1 = k))
      = none := by
    rw [List.find?_eq_none]
    intro kv hkv
    rw [List.mem_filter] at hkv
    simpa using hkv.2
  rw [h1]
  simp

theorem lookupA_insertA_ne {α : Type} (l : List (Str × α)) (k k' : Str) (v : α)
    (h : k' ≠ k) : lookupA (insertA l k v) k' = lookupA l k' := by
  rw [lookupA, insertA, List.find?_append, lookupA]
  have h2 : ([(k, v)].find? fun kv => decide (kv.1 = k')) = none := by
    simp [List.find?_cons, Ne.symm h]
  rw [h2]
  have h3 : ∀ (t : List (Str × α)),
      (t.filter fun kv => !decide (kv.1 = k)).find? (fun kv => decide (kv.1 = k'))
        = t.find? (fun kv => decide (kv.1 = k')) := by
    intro t
    induction t with
    | nil => rfl
    | cons kv t ih =>
      by_cases hk : kv.1 = k
      · simp [List.filter_cons, List.find?_cons, hk, Ne.symm h, ih]
      · simp [List.filter_cons, List.find?_cons, hk, ih]
  rw [h3]
  simp

/-- `mockTemplate` (dynamodb.go): a Cedar policy template held in memory. -/
structure MockTemplate where
  statement : Str
  description : Str
  createdDate : Str
deriving DecidableEq

/-- `mockPolicy` (dynamodb.go): a resolved Cedar policy, static
(`templateID = ""`) or template-linked. -/
structure MockPolicy where
  cedarText : Str
  templateID : Str
  principal : Option EntityIdentifier
  createdDate : Str
deriving DecidableEq

/-- The per-store registries of the mock engine. -/
structure StoreState where
  templates : List (Str × MockTemplate)
  policies : List (Str × MockPolicy)
deriving DecidableEq

/-- The mock engine state: per-policy-store registries. -/
abbrev AVPState := List (Str × StoreState)

/-- Read a store's registries (a missing store reads as empty maps). -/
def getStore (st : AVPState) (sid : Str) : StoreState :=
  (lookupA st sid).getD ⟨[], []⟩

/-- Write back a store's registries. -/
def setStore (st : AVPState) (sid : Str) (s : StoreState) : AVPState :=
  insertA st sid s

/-- `MockAVPClient.CreatePolicyTemplate`: store a template under a fresh id
(the uuid and timestamp are passed in by the model). -/
def createPolicyTemplate (st : AVPState) (sid tid stmt desc created : Str) : AVPState :=
  let s := getStore st sid
  setStore st sid { s with templates := insertA s.templates tid ⟨stmt, desc, created⟩ }

/-- `MockAVPClient.GetPolicyTemplate`: retrieve a stored template. -/
def getPolicyTemplate (st : AVPState) (sid tid : Str) : Except Str MockTemplate :=
  match lookupA (getStore st sid).templates tid with
  | some tmpl => .ok tmpl
  | none => .error ("policy template not found: ".data ++ tid)

/-- `MockAVPClient.DeletePolicyTemplate`: remove a template. -/
def deletePolicyTemplate (st : AVPState) (sid tid : Str) : AVPState :=
  let s := getStore st sid
  setStore st sid { s with templates := eraseA s.templates tid }

/-- AVP policy types. -/
inductive PolicyType where
  | static
  | templateLinked
deriving DecidableEq

/-- `avptypes.PolicyFilter`: optional restrictions by template, type and
principal. -/
structure PolicyFilter where
  policyTemplateId : Option Str
  policyType : Option PolicyType
  principal : Option EntityIdentifier

/-- `MockAVPClient.ListPolicies`: the policies of a store matching the
filter. -/
def listPolicies (st : AVPState) (sid : Str) (f : PolicyFilter) : List (Str × MockPolicy) :=
  (getStore st sid).policies.filter fun kv =>
    (match f.policyTemplateId with
     | some tid => decide (kv.2.templateID = tid)
     | none => true) &&
    (match f.policyType with
     | some .templateLinked => !decide (kv.2.templateID = [])
     | some .static => decide (kv.2.templateID = [])
     | none => true) &&
    (match f.principal with
     | some p =>
       match kv.2.principal with
       | some q => decide (q.entityType = p.entityType ∧ q.entityId = p.entityId)
       | none => false
     | none => true)

/-! ## Management service (authorizerImpl, authz.go) -/

/-- `store.Policy`: the policy DTO returned by the policy operations. -/
structure Policy where
  accountID : Str
  policyID : Str
  name : Str
  description : Str
  cedarPolicy : Str
  createdAt : Str
deriving DecidableEq

/-- The state the management service acts on: the accounts table and the
engine. -/
structure ServiceState where
  accounts : List Account
  avp : AVPState

/-- `AccountStore.Get` by key. -/
def accountsGet (accounts : List Account) (aid : Str) : Option Account :=
  accounts.find? fun a => decide (a.accountID = aid)

/-- `authorizerImpl.getAccountPolicyStoreID` (authz.go): resolve the
account's policy store; a missing account and a privileged (empty) store id
are errors. -/
def getAccountPolicyStoreID (s : ServiceState) (aid : Str) : Except Str Str :=
  match accountsGet s.accounts aid with
  | none => .error ("account not found: ".data ++ aid)
  | some a =>
    if a.policyStoreID = [] then
      .error "account has no policy store (privileged accounts cannot have policies)".data
    else .ok a.policyStoreID

/-- `authorizerImpl.DeletePolicy` (authz.go): resolve the store, refuse when
any template-linked policy references the template, otherwise delete the
template. -/
def DeletePolicy (s : ServiceState) (aid pid : Str) : Except Str Unit × ServiceState :=
  match getAccountPolicyStoreID s aid with
  | .error e => (.error e, s)
  | .ok psid =>
    let attachments := listPolicies s.avp psid ⟨some pid, some .templateLinked, none⟩
    if attachments.length > 0 then
      (.error "cannot delete policy with existing attachments".data, s)
    else
      (.ok (), { s with avp := deletePolicyTemplate s.avp psid pid })

theorem lookupA_eraseA_ne {α : Type} (l : List (Str × α)) (k k' : Str) (h : k' ≠ k) :
    lookupA (eraseA l k) k' = lookupA l k' := by
  rw [lookupA, eraseA, lookupA]
  have h3 : ∀ (t : List (Str × α)),
      (t.filter fun kv => !decide (kv.1 = k)).find? (fun kv => decide (kv.1 = k'))
        = t.find? (fun kv => decide (kv.1 = k')) := by
    intro t
    induction t with
    | nil => rfl
    | cons kv t ih =>
      by_cases hk : kv.1 = k
      · simp [List.filter_cons, List.find?_cons, hk, Ne.symm h, ih]
      · simp [List.filter_cons, List.find?_cons, hk, ih]
  rw [h3]

theorem getStore_setStore (st : AVPState) (sid : Str) (s : StoreState) :
    getStore (setStore st sid s) sid = s := by
  rw [getStore, setStore, lookupA_insertA]
  rfl

/-- C4: `DeletePolicy` succeeds exactly when no template-linked policy
(attachment) references the template in the account's policy store. With an
attachment present it returns the policy-in-use error and leaves the whole
state — in particular the template — unchanged; with none it deletes exactly
that template. -/
theorem c4_delete_policy (s : ServiceState) (aid pid : Str) (a : Account)
    (hacct : accountsGet s.accounts aid = some a) (hps : a.policyStoreID ≠ []) :
    ((DeletePolicy s aid pid).1 = .ok () ↔
      listPolicies s.avp a.policyStoreID ⟨some pid, some .templateLinked, none⟩ = []) ∧
    (listPolicies s.avp a.policyStoreID ⟨some pid, some .templateLinked, none⟩ ≠ [] →
      DeletePolicy s aid pid =
        (.error "cannot delete policy with existing attachments".data, s)) ∧
    (listPolicies s.avp a.policyStoreID ⟨some pid, some .templateLinked, none⟩ = [] →
      DeletePolicy s aid pid =
        (.ok (), { s with avp := deletePolicyTemplate s.avp a.policyStoreID pid }) ∧
      lookupA (getStore (DeletePolicy s aid pid).2.avp a.policyStoreID).templates pid
        = none ∧
      (∀ tid, tid ≠ pid →
        lookupA (getStore (DeletePolicy s aid pid).2.avp a.policyStoreID).templates tid =
          lookupA (getStore s.avp a.policyStoreID).templates tid)) := by
  have hres : getAccountPolicyStoreID s aid = .ok a.policyStoreID := by
    rw [getAccountPolicyStoreID, hacct]
    simp [hps]
  by_cases hA : listPolicies s.avp a.policyStoreID ⟨some pid, some .templateLinked, none⟩ = []
  · have hD : DeletePolicy s aid pid =
        (.ok (), { s with avp := deletePolicyTemplate s.avp a.policyStoreID pid }) := by
      rw [DeletePolicy, hres]
      simp [hA]
    refine ⟨by simp [hD, hA], fun hc => absurd hA hc, fun _ => ⟨hD, ?_, ?_⟩⟩
    · rw [hD]
      show lookupA
        (getStore (deletePolicyTemplate s.avp a.policyStoreID pid) a.policyStoreID).templates
        pid = none
      rw [deletePolicyTemplate]
      rw [getStore_setStore]
      exact lookupA_eraseA _ _
    · intro tid htid
      rw [hD]
      show lookupA
        (getStore (deletePolicyTemplate s.avp a.policyStoreID pid) a.policyStoreID).templates
        tid = _
      rw [deletePolicyTemplate, getStore_setStore]
      exact lookupA_eraseA_ne _ _ _ htid
  · have hlen : 0 < (listPolicies s.avp a.policyStoreID
        ⟨some pid, some .templateLinked, none⟩).length := List.length_pos.mpr hA
    have hD : DeletePolicy s aid pid =
        (.error "cannot delete policy with existing attachments".data, s) := by
      rw [DeletePolicy, hres]
      simp only [gt_iff_lt, if_pos hlen]
    refine ⟨?_, fun _ => hD, fun hc => absurd hc hA⟩
    constructor
    · intro hok
      rw [hD] at hok
      exact absurd hok (by simp)
    · intro hc
      exact absurd hc hA

/-- A policy store holding one template and no attachment. -/
def c4StEmpty : ServiceState :=
  { accounts := [exAccount]
    avp := [("ps-1".data,
      ⟨[("tmpl-1".data, ⟨"permit(?principal, action, resource);".data, [], []⟩)], []⟩)] }

/-- The same store with one template-linked policy referencing the
template. -/
def c4StUsed : ServiceState :=
  { accounts := [exAccount]
    avp := [("ps-1".data,
      ⟨[("tmpl-1".data, ⟨"permit(?principal, action, resource);".data, [], []⟩)],
       [("att-1".data,
         ⟨"permit(principal, action, resource);".data, "tmpl-1".data,
          some ⟨"ROSA::Group".data, "g1".data⟩, []⟩)]⟩)] }

theorem c4_delete_policy_witness :
    DeletePolicy c4StUsed "111111111111".data "tmpl-1".data =
      (.error "cannot delete policy with existing attachments".data, c4StUsed) ∧
    (DeletePolicy c4StEmpty "111111111111".data "tmpl-1".data).1 = .ok () ∧
    lookupA (getStore (DeletePolicy c4StEmpty "111111111111".data "tmpl-1".data).2.avp
      "ps-1".data).templates "tmpl-1".data = none :=
  have h1 := c4_delete_policy c4StUsed "111111111111".data "tmpl-1".data exAccount
    rfl (by decide)
  have h2 := c4_delete_policy c4StEmpty "111111111111".data "tmpl-1".data exAccount
    rfl (by decide)
  ⟨h1.2.1 (by decide), (h2.1).mpr (by decide), (h2.2.2 (by decide)).2.1⟩

/-! ## Account lifecycle (authorizerImpl.EnableAccount, authz.go) -/

/-- The engine calls `EnableAccount` makes, as injectable outcomes: policy
store creation (a fresh uuid id, or an error) and schema installation. -/
structure EnableStubs where
  createPolicyStore : Except Str Str
  putSchema : Str → Except Str Unit

/-- The outcome of `EnableAccount`: the Go `(account, error)` result, the
accounts table afterwards, and the policy stores deleted by the best-effort
cleanup. -/
structure EnableOutcome where
  result : Except Str Account
  accounts : List Account
  deletedStores : List Str

/-- `AccountStore.Create` (accounts.go): stamp `createdAt` when empty, then
conditionally insert (`attribute_not_exists(accountId)`); a condition
failure is the already-exists error. -/
def accountsCreate (accounts : List Account) (a : Account) (now : Str) :
    Except Str (Account × List Account) :=
  let a' := if a.createdAt = [] then { a with createdAt := now } else a
  if accounts.any fun r => decide (r.accountID = a.accountID) then
    .error ("account already exists: ".data ++ a.accountID)
  else
    .ok (a', accounts ++ [a'])

/-- The tail of `EnableAccount`: insert the record; on failure delete the
created policy store (when there is one) best-effort. -/
def finishEnable (account : Account) (accounts : List Account) (now : Str) : EnableOutcome :=
  match accountsCreate accounts account now with
  | .error e =>
    ⟨.error e, accounts, if account.policyStoreID ≠ [] then [account.policyStoreID] else []⟩
  | .ok (a', accounts') => ⟨.ok a', accounts', []⟩

/-- `authorizerImpl.EnableAccount` (authz.go): privileged accounts get only
the record; otherwise create a policy store, install the schema (best-effort
rollback on failure), then insert the record. -/
def EnableAccount (stubs : EnableStubs) (accounts : List Account) (now : Str)
    (accountID createdBy : Str) (isPrivileged : Bool) : EnableOutcome :=
  let account : Account := ⟨accountID, [], isPrivileged, [], createdBy⟩
  if isPrivileged then
    finishEnable account accounts now
  else
    match stubs.createPolicyStore with
    | .error e => ⟨.error ("failed to create policy store: ".data ++ e), accounts, []⟩
    | .ok sid =>
      match stubs.putSchema sid with
      | .error e =>
        ⟨.error ("failed to set policy store schema: ".data ++ e), accounts, [sid]⟩
      | .ok _ => finishEnable { account with policyStoreID := sid } accounts now

/-- C5: `EnableAccount` with `privileged = true` inserts only the record,
with empty policy store id; with `privileged = false` it creates a store,
installs the schema and inserts the record carrying the returned store id —
so every account it returns satisfies `privileged ⇔ policyStoreId = ""`
(store ids returned by the engine being non-empty). Schema or insert
failures delete the created store best-effort and surface the original
error; an existing record fails as already-exists. -/
theorem c5_enable_account (stubs : EnableStubs) (accounts : List Account)
    (now aid cb : Str) :
    ((accounts.any fun r => decide (r.accountID = aid)) = false →
      EnableAccount stubs accounts now aid cb true =
        ⟨.ok ⟨aid, [], true, now, cb⟩, accounts ++ [⟨aid, [], true, now, cb⟩], []⟩) ∧
    ((accounts.any fun r => decide (r.accountID = aid)) = true →
      EnableAccount stubs accounts now aid cb true =
        ⟨.error ("account already exists: ".data ++ aid), accounts, []⟩) ∧
    (∀ sid, stubs.createPolicyStore = .ok sid → stubs.putSchema sid = .ok () →
      (accounts.any fun r => decide (r.accountID = aid)) = false →
      EnableAccount stubs accounts now aid cb false =
        ⟨.ok ⟨aid, sid, false, now, cb⟩, accounts ++ [⟨aid, sid, false, now, cb⟩], []⟩) ∧
    (∀ sid e, stubs.createPolicyStore = .ok sid → stubs.putSchema sid = .error e →
      EnableAccount stubs accounts now aid cb false =
        ⟨.error ("failed to set policy store schema: ".data ++ e), accounts, [sid]⟩) ∧
    (∀ e, stubs.createPolicyStore = .error e →
      EnableAccount stubs accounts now aid cb false =
        ⟨.error ("failed to create policy store: ".data ++ e), accounts, []⟩) ∧
    (∀ sid, sid ≠ [] → stubs.createPolicyStore = .ok sid → stubs.putSchema sid = .ok () →
      (accounts.any fun r => decide (r.accountID = aid)) = true →
      EnableAccount stubs accounts now aid cb false =
        ⟨.error ("account already exists: ".data ++ aid), accounts, [sid]⟩) ∧
    (∀ (b : Bool) (a : Account),
      (∀ sid, stubs.createPolicyStore = .ok sid → sid ≠ []) →
      (EnableAccount stubs accounts now aid cb b).result = .ok a →
      (a.privileged = true ↔ a.policyStoreID = [])) := by
  refine ⟨?_, ?_, ?_, ?_, ?_, ?_, ?_⟩
  · intro h
    simp [EnableAccount, finishEnable, accountsCreate, h]
  · intro h
    simp [EnableAccount, finishEnable, accountsCreate, h]
  · intro sid h1 h2 h3
    simp [EnableAccount, finishEnable, accountsCreate, h1, h2, h3]
  · intro sid e h1 h2
    simp [EnableAccount, h1, h2]
  · intro e h1
    simp [EnableAccount, h1]
  · intro sid hsid h1 h2 h3
    simp [EnableAccount, finishEnable, accountsCreate, h1, h2, h3, hsid]
  · intro b a hfresh hok
    cases b with
    | true =>
      simp only [EnableAccount, if_true] at hok
      rw [finishEnable, accountsCreate] at hok
      by_cases hany : (accounts.any fun r => decide (r.accountID = aid)) = true
      · simp [hany] at hok
      · simp only [Bool.not_eq_true] at hany
        simp only [hany, Bool.false_eq_true, if_false] at hok
        simp at hok
        subst hok
        simp
    | false =>
      cases hcs : stubs.createPolicyStore with
      | error e =>
        simp [EnableAccount, hcs] at hok
      | ok sid =>
        have hsid := hfresh sid hcs
        cases hps : stubs.putSchema sid with
        | error e =>
          simp [EnableAccount, hcs, hps] at hok
        | ok u =>
          simp only [EnableAccount, Bool.false_eq_true, if_false, hcs, hps] at hok
          rw [finishEnable, accountsCreate] at hok
          by_cases hany : (accounts.any fun r => decide (r.accountID = aid)) = true
          · simp [hany] at hok
          · simp only [Bool.not_eq_true] at hany
            simp only [hany, Bool.false_eq_true, if_false] at hok
            simp at hok
            subst hok
            simp [hsid]

/-- Stubs: healthy engine. -/
def c5StubsOk : EnableStubs := ⟨.ok "ps-9".data, fun _ => .ok ()⟩

/-- Stubs: schema installation fails. -/
def c5StubsBadSchema : EnableStubs := ⟨.ok "ps-9".data, fun _ => .error "schema boom".data⟩

/-- Stubs: policy store creation fails. -/
def c5StubsBadStore : EnableStubs := ⟨.error "store boom".data, fun _ => .ok ()⟩

/-- A pre-existing account record. -/
def c5Acct : Account := ⟨"333333333333".data, [], true, "t0".data, "boot".data⟩

theorem c5_enable_account_witness :
    EnableAccount c5StubsOk [] "t1".data "333333333333".data "boot".data true =
      ⟨.ok ⟨"333333333333".data, [], true, "t1".data, "boot".data⟩,
       [⟨"333333333333".data, [], true, "t1".data, "boot".data⟩], []⟩ ∧
    EnableAccount c5StubsOk [c5Acct] "t1".data "333333333333".data "boot".data true =
      ⟨.error ("account already exists: ".data ++ "333333333333".data), [c5Acct], []⟩ ∧
    EnableAccount c5StubsOk [] "t1".data "333333333333".data "boot".data false =
      ⟨.ok ⟨"333333333333".data, "ps-9".data, false, "t1".data, "boot".data⟩,
       [⟨"333333333333".data, "ps-9".data, false, "t1".data, "boot".data⟩], []⟩ ∧
    EnableAccount c5StubsBadSchema [] "t1".data "333333333333".data "boot".data false =
      ⟨.error ("failed to set policy store schema: ".data ++ "schema boom".data),
       [], ["ps-9".data]⟩ ∧
    EnableAccount c5StubsBadStore [] "t1".data "333333333333".data "boot".data false =
      ⟨.error ("failed to create policy store: ".data ++ "store boom".data), [], []⟩ ∧
    EnableAccount c5StubsOk [c5Acct] "t1".data "333333333333".data "boot".data false =
      ⟨.error ("account already exists: ".data ++ "333333333333".data),
       [c5Acct], ["ps-9".data]⟩ :=
  have h0 := c5_enable_account c5StubsOk ([] : List Account) "t1".data
    "333333333333".data "boot".data
  have h1 := c5_enable_account c5StubsOk [c5Acct] "t1".data "333333333333".data "boot".data
  have h2 := c5_enable_account c5StubsBadSchema ([] : List Account) "t1".data
    "333333333333".data "boot".data
  have h3 := c5_enable_account c5StubsBadStore ([] : List Account) "t1".data
    "333333333333".data "boot".data
  ⟨h0.1 rfl, h1.2.1 rfl,
   h0.2.2.1 "ps-9".data rfl rfl rfl,
   h2.2.2.2.1 "ps-9".data "schema boom".data rfl rfl,
   h3.2.2.2.2.1 "store boom".data rfl,
   h1.2.2.2.2.2.1 "ps-9".data (by decide) rfl rfl rfl⟩

/-! ## Local evaluator adaptation (dynamodb.go) -/

/-- `resolvePrincipal` (dynamodb.go): replace each `?principal` in the
template text with `principal in <EntityType>::"<EntityId>"`. -/
def resolvePrincipal (cedarTemplate : Str) (p : EntityIdentifier) : Str :=
  goReplaceAll cedarTemplate "?principal".data
    ("principal in ".data ++ p.entityType ++ ':' :: ':' :: '"' :: p.entityId ++ ['"'])

/-- `adaptForCedarAgent` (dynamodb.go): rewrite `resource like ` into
`resource.arn like `. -/
def adaptForCedarAgent (cedarText : Str) : Str :=
  goReplaceAll cedarText "resource like ".data "resource.arn like ".data

/-- Does a line, once trimmed, open a `permit`/`forbid` statement? -/
def isStmtStart (line : Str) : Bool :=
  "permit".data.isPrefixOf (goTrimSpace line) ||
  "forbid".data.isPrefixOf (goTrimSpace line)

/-- The line loop of `splitCedarStatements` (dynamodb.go): `current` is the
builder; a statement-opening line flushes the trimmed builder first. -/
def splitCedarLines : List Str → Str → List Str
  | [], current => if goTrimSpace current = [] then [] else [goTrimSpace current]
  | l :: ls, current =>
    if isStmtStart l && !current.isEmpty then
      if goTrimSpace current = [] then splitCedarLines ls (l ++ ['\n'])
      else goTrimSpace current :: splitCedarLines ls (l ++ ['\n'])
    else splitCedarLines ls (current ++ l ++ ['\n'])

/-- `splitCedarStatements` (dynamodb.go). -/
def splitCedarStatements (cedarText : Str) : List Str :=
  splitCedarLines (goSplit cedarText "\n".data) []

/-- The resolved policy list `syncPolicies` (dynamodb.go) pushes to
cedar-agent: one entry `("<id>-<i>", statement)` per split statement of each
policy's adapted Cedar text. -/
def syncPolicyList (storePolicies : List (Str × MockPolicy)) : List (Str × Str) :=
  (storePolicies.map fun kv =>
    (splitCedarStatements (adaptForCedarAgent kv.2.cedarText)).enum.map fun ist =>
      (kv.1 ++ '-' :: (Nat.repr ist.1).data, ist.2)).flatten

/-- A well-formed statement block of lines: non-empty, the first line opens a
`permit`/`forbid` statement, continuation lines do not. -/
def GoodBlock (b : List Str) : Prop :=
  b ≠ [] ∧ isStmtStart b.headI = true ∧ ∀ l ∈ b.tail, isStmtStart l = false

instance (b : List Str) : Decidable (GoodBlock b) := by
  unfold GoodBlock
  infer_instance

/-- The text a block of lines contributes to the builder. -/
def blockText (b : List Str) : Str := (b.map fun l => l ++ ['\n']).flatten

theorem dropWhile_all_iff (p : Char → Bool) (s : Str) :
    (∀ c ∈ s.dropWhile p, p c = true) ↔ (∀ c ∈ s, p c = true) := by
  induction s with
  | nil => simp
  | cons h t ih =>
    rw [List.dropWhile_cons]
    by_cases hp : p h = true
    · rw [if_pos hp]
      constructor
      · intro ha c hc
        rcases List.mem_cons.mp hc with hceq | hm
        · rw [hceq]; exact hp
        · exact ih.mp ha c hm
      · intro ha c hc
        exact ih.mpr (fun c hc => ha c (List.mem_cons_of_mem _ hc)) c hc
    · rw [if_neg hp]

theorem goTrimSpace_eq_nil_iff (s : Str) :
    goTrimSpace s = [] ↔ ∀ c ∈ s, goIsSpace c = true := by
  rw [goTrimSpace, List.reverse_eq_nil_iff, List.dropWhile_eq_nil_iff]
  simp only [List.mem_reverse]
  exact dropWhile_all_iff goIsSpace s

theorem stmtStart_not_all_space (l : Str) (h : isStmtStart l = true) :
    ¬∀ c ∈ l, goIsSpace c = true := by
  intro hall
  have hnil : goTrimSpace l = [] := (goTrimSpace_eq_nil_iff l).mpr hall
  rw [isStmtStart, hnil] at h
  simp [List.isPrefixOf] at h

theorem trim_blockText_ne (l : Str) (ls : List Str) (hl : isStmtStart l = true) :
    goTrimSpace (blockText (l :: ls)) ≠ [] := by
  intro hnil
  have hall := (goTrimSpace_eq_nil_iff _).mp hnil
  apply stmtStart_not_all_space l hl
  intro c hc
  apply hall
  rw [blockText]
  simp only [List.map_cons, List.flatten_cons]
  exact List.mem_append.mpr (Or.inl (List.mem_append.mpr (Or.inl hc)))

/-- Lines that do not open a statement are absorbed into the builder. -/
theorem splitCedarLines_append_tail (ls : List Str)
    (htail : ∀ x ∈ ls, isStmtStart x = false) :
    ∀ (rest : List Str) (current : Str),
      splitCedarLines (ls ++ rest) current
        = splitCedarLines rest (current ++ blockText ls) := by
  induction ls with
  | nil => intro rest current; simp [blockText]
  | cons l ls ih =>
    intro rest current
    have hl : isStmtStart l = false := htail l (List.mem_cons_self _ _)
    rw [List.cons_append, splitCedarLines]
    simp only [hl, Bool.false_and, Bool.false_eq_true, if_false]
    rw [ih (fun x hx => htail x (List.mem_cons_of_mem _ hx)) rest]
    congr 1
    simp [blockText, List.append_assoc]

/-- The split loop on a flattened sequence of well-formed blocks flushes the
builder and then emits one trimmed statement per block. -/
theorem splitCedarLines_blocks (blocks : List (List Str))
    (hb : ∀ b ∈ blocks, GoodBlock b) :
    ∀ (current : Str),
      splitCedarLines blocks.flatten current
        = (if goTrimSpace current = [] then [] else [goTrimSpace current])
          ++ blocks.map fun b => goTrimSpace (blockText b) := by
  induction blocks with
  | nil =>
    intro current
    simp [splitCedarLines]
  | cons b bs ih =>
    intro current
    obtain ⟨hne, hhead, htail⟩ := hb b (List.mem_cons_self b bs)
    obtain ⟨l, ls, rfl⟩ := List.exists_cons_of_ne_nil hne
    have hl : isStmtStart l = true := by simpa using hhead
    have hbs : ∀ b' ∈ bs, GoodBlock b' := fun b' hb' => hb b' (List.mem_cons_of_mem _ hb')
    have htail' : ∀ x ∈ ls, isStmtStart x = false := by simpa using htail
    have hkey : splitCedarLines (ls ++ bs.flatten) (l ++ ['\n'])
        = goTrimSpace (blockText (l :: ls)) :: bs.map fun b => goTrimSpace (blockText b) := by
      rw [splitCedarLines_append_tail ls htail' bs.flatten (l ++ ['\n'])]
      have hbt : (l ++ ['\n']) ++ blockText ls = blockText (l :: ls) := by
        simp [blockText]
      rw [hbt, ih hbs]
      rw [if_neg (trim_blockText_ne l ls hl)]
      simp
    rw [List.flatten_cons, List.cons_append, splitCedarLines]
    by_cases hcur : current = []
    · subst hcur
      simp only [List.isEmpty_nil, Bool.not_true, Bool.and_false, Bool.false_eq_true,
        if_false, List.nil_append]
      rw [hkey]
      simp [goTrimSpace]
    · have hcond : (isStmtStart l && !current.isEmpty) = true := by
        have hemp : current.isEmpty = false := by
          cases current with
          | nil => exact absurd rfl hcur
          | cons c t => rfl
        simp [hl, hemp]
      simp only [hcond, if_true]
      by_cases htc : goTrimSpace current = []
      · rw [if_pos htc, hkey, if_pos htc]
        simp
      · rw [if_neg htc, hkey, if_neg htc]
        simp

/-- C7: resolving a template replaces every occurrence of `?principal` by
`principal in <EntityType>::"<EntityId>"` — using `in`, not `==` — in the
split-and-join sense of replace-all; the adaptation rewrites every
occurrence of `resource like ` to `resource.arn like `; the pushed policy
set splits a multi-statement Cedar source (one block of lines per
permit/forbid statement) into exactly one trimmed entry per statement; and
every such statement of every store policy appears in the pushed list under
an indexed id. -/
theorem c7_template_resolution :
    (∀ (t : Str) (p : EntityIdentifier),
      resolvePrincipal t p =
        List.intercalate
          ("principal in ".data ++ p.entityType ++ ':' :: ':' :: '"' :: p.entityId ++ ['"'])
          (goSplit t "?principal".data)) ∧
    (∀ s : Str,
      adaptForCedarAgent s =
        List.intercalate "resource.arn like ".data (goSplit s "resource like ".data)) ∧
    (∀ (text : Str) (blocks : List (List Str)),
      goSplit text "\n".data = blocks.flatten →
      (∀ b ∈ blocks, GoodBlock b) →
      splitCedarStatements text = blocks.map fun b => goTrimSpace (blockText b)) ∧
    (∀ (ps : List (Str × MockPolicy)) (pid : Str) (p : MockPolicy), (pid, p) ∈ ps →
      ∀ st ∈ splitCedarStatements (adaptForCedarAgent p.cedarText),
        ∃ i, (pid ++ '-' :: (Nat.repr i).data, st) ∈ syncPolicyList ps) := by
  refine ⟨?_, ?_, ?_, ?_⟩
  · intro t p
    exact goReplaceAll_eq_intercalate t "?principal".data _ (by decide)
  · intro s
    exact goReplaceAll_eq_intercalate s "resource like ".data _ (by decide)
  · intro text blocks hsplit hgood
    rw [splitCedarStatements, hsplit, splitCedarLines_blocks blocks hgood []]
    simp [goTrimSpace]
  · intro ps pid p hps st hst
    have hmem : ∃ pr ∈ (splitCedarStatements (adaptForCedarAgent p.cedarText)).enum,
        pr.2 = st := by
      have hmap := List.enum_map_snd (splitCedarStatements (adaptForCedarAgent p.cedarText))
      rw [← hmap] at hst
      obtain ⟨pr, hpr, hpr2⟩ := List.mem_map.mp hst
      exact ⟨pr, hpr, hpr2⟩
    obtain ⟨⟨i, st'⟩, hpr, hpr2⟩ := hmem
    simp only at hpr2
    subst hpr2
    refine ⟨i, ?_⟩
    rw [syncPolicyList, List.mem_flatten]
    refine ⟨_, List.mem_map.mpr ⟨(pid, p), hps, rfl⟩, ?_⟩
    exact List.mem_map.mpr ⟨(i, st'), hpr, rfl⟩

/-- Two one-line Cedar statements. -/
def c7Line1 : Str := "permit(principal, action, resource);".data

/-- The second statement line. -/
def c7Line2 : Str := "forbid(principal, action, resource);".data

/-- A two-statement Cedar source. -/
def c7Text : Str := c7Line1 ++ '\n' :: c7Line2

/-- A store policy list holding one single-statement policy. -/
def c7Ps : List (Str × MockPolicy) :=
  [("p1".data, ⟨"permit(x);".data, "tmpl-1".data, none, []⟩)]

theorem c7_template_resolution_witness :
    splitCedarStatements c7Text =
      [goTrimSpace (blockText [c7Line1]), goTrimSpace (blockText [c7Line2])] ∧
    (∃ i, ("p1".data ++ '-' :: (Nat.repr i).data, "permit(x);".data) ∈ syncPolicyList c7Ps) :=
  have h := c7_template_resolution
  ⟨h.2.2.1 c7Text [[c7Line1], [c7Line2]] (by decide) (by decide),
   h.2.2.2 c7Ps "p1".data ⟨"permit(x);".data, "tmpl-1".data, none, []⟩ (by decide)
     "permit(x);".data (by decide)⟩

/-! ## Check endpoint and gating middleware (pkg/handlers, pkg/middleware) -/

/-- The decoded JSON body of `POST /api/v0/authz/check`
(`CheckAuthorizationRequest`, handlers/authz.go). -/
structure CheckAuthzBody where
  principal : Str
  action : Str
  resource : Str
  context : List (Str × GoValue)
  resourceTags : List (Str × Str)

/-- An HTTP response body as these handlers write it: an error object
`{kind: "Error", code, reason}` or a decision object. -/
inductive HttpBody where
  | errorBody (code reason : Str)
  | decisionBody (decision : Str)

/-- An HTTP response: status code and body. -/
structure HttpResponse where
  status : Nat
  body : HttpBody

/-- The `AuthzRequest` the check handler builds: `RequestTags` is left
empty. -/
def checkAuthzReq (accountID : Str) (req : CheckAuthzBody) : AuthzRequest :=
  ⟨accountID, req.principal, req.action, req.resource, req.resourceTags, [], req.context⟩

/-- `AuthzHandler.CheckAuthorization` (handlers/authz.go): decode and
validate the body, run the decision pipeline, map any pipeline error to HTTP
500 `authorization-error`, and otherwise answer HTTP 200 with the
`ALLOW`/`DENY` decision. The JSON decode outcome and the pipeline are inputs
of the model. -/
def CheckAuthorization (authorize : AuthzRequest → Bool × Option Str)
    (accountID : Str) (body : Option CheckAuthzBody) : HttpResponse :=
  match body with
  | none => ⟨400, .errorBody "invalid-request".data "Invalid request body".data⟩
  | some req =>
    if req.principal = [] then
      ⟨400, .errorBody "missing-principal".data "principal is required".data⟩
    else if req.action = [] then
      ⟨400, .errorBody "missing-action".data "action is required".data⟩
    else if req.resource = [] then
      ⟨400, .errorBody "missing-resource".data "resource is required".data⟩
    else
      match authorize (checkAuthzReq accountID req) with
      | (_, some e) => ⟨500, .errorBody "authorization-error".data e⟩
      | (allowed, none) =>
        ⟨200, .decisionBody (if allowed then "ALLOW".data else "DENY".data)⟩

/-- The outcome of the gating middleware: forward to the next handler or
write an error response. -/
inductive GateOutcome where
  | proceed
  | reject (resp : HttpResponse)

/-- `Authz.Authorize` middleware (middleware/authz.go): the gate decision
given the request-scope fields and the pipeline outcome. The derivation of
the action/resource from the HTTP request is outside this claim; the built
request is an input. -/
def middlewareAuthorize (enabled : Bool) (accountID callerARN : Str) (privileged : Bool)
    (authorize : AuthzRequest → Bool × Option Str) (req : AuthzRequest) : GateOutcome :=
  if !enabled then .proceed
  else if accountID = [] then
    .reject ⟨403, .errorBody "missing-account-id".data "Account ID header is required".data⟩
  else if callerARN = [] then
    .reject ⟨403, .errorBody "missing-caller-arn".data "Caller ARN header is required".data⟩
  else if privileged then .proceed
  else
    match authorize req with
    | (_, some e) =>
      if goContains e "not provisioned".data then
        .reject ⟨403, .errorBody "account-not-provisioned".data
          "Account is not provisioned for ROSA authorization".data⟩
      else
        .reject ⟨500, .errorBody "authorization-error".data
          "Authorization check failed".data⟩
    | (allowed, none) =>
      if !allowed then
        .reject ⟨403, .errorBody "access-denied".data
          "You do not have permission to perform this action".data⟩
      else .proceed

/-- C10: the check handler never answers HTTP 403; with a valid body it maps
a pipeline Allow/Deny to HTTP 200 with decision `ALLOW`/`DENY`, and every
pipeline error — including the account-not-provisioned error — to HTTP 500
with code `authorization-error`; the gating middleware, in contrast, maps
the same not-provisioned pipeline error to HTTP 403
`account-not-provisioned`. -/
theorem c10_check_handler_mapping (authorize : AuthzRequest → Bool × Option Str)
    (accountID : Str) (body : Option CheckAuthzBody) :
    (CheckAuthorization authorize accountID body).status ≠ 403 ∧
    (∀ req, body = some req → req.principal ≠ [] → req.action ≠ [] → req.resource ≠ [] →
      (∀ b, authorize (checkAuthzReq accountID req) = (b, none) →
        CheckAuthorization authorize accountID body =
          ⟨200, .decisionBody (if b then "ALLOW".data else "DENY".data)⟩) ∧
      (∀ b e, authorize (checkAuthzReq accountID req) = (b, some e) →
        CheckAuthorization authorize accountID body =
          ⟨500, .errorBody "authorization-error".data e⟩)) ∧
    (∀ (req : AuthzRequest) (e : Str), accountID ≠ [] → req.callerARN ≠ [] →
      goContains e "not provisioned".data = true →
      authorize req = (false, some e) →
      middlewareAuthorize true accountID req.callerARN false authorize req =
        .reject ⟨403, .errorBody "account-not-provisioned".data
          "Account is not provisioned for ROSA authorization".data⟩) := by
  refine ⟨?_, ?_, ?_⟩
  · cases body with
    | none => simp [CheckAuthorization]
    | some req =>
      unfold CheckAuthorization
      simp only [Option.some.injEq]
      split_ifs <;> try simp
      rcases h : authorize (checkAuthzReq accountID req) with ⟨b, _ | e⟩ <;> simp [h]
  · intro req hbody h1 h2 h3
    subst hbody
    constructor
    · intro b hauth
      simp [CheckAuthorization, h1, h2, h3, hauth]
    · intro b e hauth
      simp [CheckAuthorization, h1, h2, h3, hauth]
  · intro req e hacc harn hnp hauth
    simp [middlewareAuthorize, hacc, harn, hauth, hnp]

/-- A pipeline stub that fails with the account-not-provisioned error. -/
def c10NpAuth : AuthzRequest → Bool × Option Str :=
  fun _ => (false, some "account not provisioned: 222222222222".data)

/-- A pipeline stub that denies. -/
def c10DenyAuth : AuthzRequest → Bool × Option Str := fun _ => (false, none)

/-- A valid check body. -/
def c10Body : CheckAuthzBody :=
  ⟨"arn:aws:iam::222222222222:user/x".data, "DescribeCluster".data, "*".data, [], []⟩

theorem c10_check_handler_mapping_witness :
    CheckAuthorization c10DenyAuth "222222222222".data (some c10Body) =
      ⟨200, .decisionBody "DENY".data⟩ ∧
    CheckAuthorization c10NpAuth "222222222222".data (some c10Body) =
      ⟨500, .errorBody "authorization-error".data
        "account not provisioned: 222222222222".data⟩ ∧
    middlewareAuthorize true "222222222222".data
        (exReq "222222222222".data "arn:u".data).callerARN false c10NpAuth
        (exReq "222222222222".data "arn:u".data) =
      .reject ⟨403, .errorBody "account-not-provisioned".data
        "Account is not provisioned for ROSA authorization".data⟩ :=
  have hd := c10_check_handler_mapping c10DenyAuth "222222222222".data (some c10Body)
  have hn := c10_check_handler_mapping c10NpAuth "222222222222".data (some c10Body)
  ⟨by
    have h := (hd.2.1 c10Body rfl (by decide) (by decide) (by decide)).1 false rfl
    simpa using h,
   (hn.2.1 c10Body rfl (by decide) (by decide) (by decide)).2 false
     "account not provisioned: 222222222222".data rfl,
   hn.2.2 (exReq "222222222222".data "arn:u".data)
     "account not provisioned: 222222222222".data (by decide) (by decide) (by decide) rfl⟩

/-! ## Policy metadata codec (encodePolicyMeta / decodePolicyMeta, authz.go)

`encodePolicyMeta` is `json.Marshal(policyMeta{Name, Description})` and
`decodePolicyMeta` is `json.Unmarshal` with a tolerant fallback. The model
carries a faithful JSON string escaper (Go's, with default HTML escaping)
and a JSON parser covering the format `json.Unmarshal` accepts (values,
whitespace, escape sequences including surrogate pairs, case-insensitive
field matching, last-field-wins, null ignored, unknown fields skipped). -/

/-- Lowercase hexadecimal digit. -/
def hexChar (n : Nat) : Char :=
  if n < 10 then Char.ofNat (48 + n) else Char.ofNat (87 + n)

/-- Go `encoding/json` escaping of one character (default HTML escaping):
quote and backslash, the `\n`/`\r`/`\t` shortcuts, `\u00XX` for the other
control characters and for `<`, `>`, `&`, and ` `/` `. -/
def escChar (c : Char) : Str :=
  if c = '"' then ['\\', '"']
  else if c = '\\' then ['\\', '\\']
  else if c = '\n' then ['\\', 'n']
  else if c = '\r' then ['\\', 'r']
  else if c = '\t' then ['\\', 't']
  else if c = '<' ∨ c = '>' ∨ c = '&' ∨ c.toNat < 0x20 then
    ['\\', 'u', '0', '0', hexChar (c.toNat / 16), hexChar (c.toNat % 16)]
  else if c.toNat = 0x2028 ∨ c.toNat = 0x2029 then
    ['\\', 'u', '2', '0', '2', hexChar (c.toNat % 16)]
  else [c]

/-- The escaped body of a JSON string literal. -/
def escBody (s : Str) : Str := (s.map escChar).flatten

/-- A JSON string literal. -/
def encodeJsonString (s : Str) : Str := '"' :: escBody s ++ ['"']

/-- `encodePolicyMeta` (authz.go): the `json.Marshal` image of
`policyMeta{Name: name, Description: description}` — field `name` first,
`description` omitted when empty. -/
def encodePolicyMeta (name description : Str) : Str :=
  '\x7b' :: "\"name\":".data ++ encodeJsonString name ++
    (if description = [] then []
     else ',' :: "\"description\":".data ++ encodeJsonString description) ++
    ['\x7d']

/-- Parsed JSON values; numeric payloads are irrelevant here. -/
inductive Json where
  | null
  | bool (b : Bool)
  | num
  | str (s : Str)
  | arr (xs : List Json)
  | obj (kvs : List (Str × Json))

/-- JSON insignificant whitespace. -/
def isJsonWs (c : Char) : Bool := c = ' ' || c = '\t' || c = '\n' || c = '\r'

/-- Skip insignificant whitespace. -/
def skipWs (s : Str) : Str := s.dropWhile isJsonWs

/-- Hexadecimal digit value. -/
def hexVal (c : Char) : Option Nat :=
  if '0' ≤ c ∧ c ≤ '9' then some (c.toNat - 48)
  else if 'a' ≤ c ∧ c ≤ 'f' then some (c.toNat - 87)
  else if 'A' ≤ c ∧ c ≤ 'F' then some (c.toNat - 55)
  else none

/-- A `\uXXXX` escape after the `\u`: the four hex digits, with
surrogate-pair combination and U+FFFD replacement for lone surrogates, as
Go `encoding/json` decodes them. Returns the decoded character and the
remaining input. -/
def uniEsc (r : Str) : Option (Char × Str) :=
  match r with
  | h1 :: h2 :: h3 :: h4 :: r4 =>
    match hexVal h1, hexVal h2, hexVal h3, hexVal h4 with
    | some a, some b, some c3, some d =>
      let code := ((a * 16 + b) * 16 + c3) * 16 + d
      if 0xD800 ≤ code ∧ code < 0xDC00 then
        match r4 with
        | e2 :: u2 :: g1 :: g2 :: g3 :: g4 :: r2 =>
          if e2 = '\\' ∧ u2 = 'u' then
            match hexVal g1, hexVal g2, hexVal g3, hexVal g4 with
            | some a2, some b2, some c2, some d2 =>
              let code2 := ((a2 * 16 + b2) * 16 + c2) * 16 + d2
              if 0xDC00 ≤ code2 ∧ code2 < 0xE000 then
                some (Char.ofNat (0x10000 + (code - 0xD800) * 0x400 + (code2 - 0xDC00)), r2)
              else some ('�', e2 :: u2 :: g1 :: g2 :: g3 :: g4 :: r2)
            | _, _, _, _ => some ('�', e2 :: u2 :: g1 :: g2 :: g3 :: g4 :: r2)
          else some ('�', e2 :: u2 :: g1 :: g2 :: g3 :: g4 :: r2)
        | short => some ('�', short)
      else if 0xDC00 ≤ code ∧ code < 0xE000 then some ('�', r4)
      else some (Char.ofNat code, r4)
    | _, _, _, _ => none
  | _ => none

/-- The outcome of scanning one step of a JSON string literal body: the
closing quote, one decoded character, or a decoding error. -/
inductive ScanStep where
  | close (rest : Str)
  | emit (ch : Char) (rest : Str)
  | bad

/-- One scanning step of a JSON string literal body, undoing escapes as Go
`encoding/json` does: the named escapes, `\uXXXX` via `uniEsc`, rejection
of raw control characters and unknown escapes. -/
def psbStep (c : Char) (rest : Str) : ScanStep :=
  if c = '"' then .close rest
  else if c = '\\' then
    match rest with
    | [] => .bad
    | e :: r =>
      if e = '"' then .emit '"' r
      else if e = '\\' then .emit '\\' r
      else if e = '/' then .emit '/' r
      else if e = 'b' then .emit '\x08' r
      else if e = 'f' then .emit '\x0c' r
      else if e = 'n' then .emit '\n' r
      else if e = 'r' then .emit '\r' r
      else if e = 't' then .emit '\t' r
      else if e = 'u' then
        match uniEsc r with
        | some (ch, r2) => .emit ch r2
        | none => .bad
      else .bad
  else if c.toNat < 0x20 then .bad
  else .emit c rest

/-- Parse the remainder of a JSON string literal (after the opening quote)
by iterating `psbStep`. Returns the decoded text and the input past the
closing quote. Fuel is initialised to the input length (each scanning step
consumes at least one character). -/
def parseStringBody (fuel : Nat) (s : Str) : Option (Str × Str) :=
  match s, fuel with
  | [], _ => none
  | _ :: _, 0 => none
  | c :: rest, fuel + 1 =>
    match psbStep c rest with
    | .close rest2 => some ([], rest2)
    | .emit ch rest2 => (parseStringBody fuel rest2).map fun pr => (ch :: pr.1, pr.2)
    | .bad => none


/-- Decimal digit test. -/
def isDigit (c : Char) : Bool := '0' ≤ c && c ≤ '9'

/-- Consume one or more decimal digits. -/
def parseDigits : Str → Option Str
  | [] => none
  | c :: rest => if isDigit c then some (rest.dropWhile isDigit) else none

/-- The fraction/exponent tail of a JSON number. -/
def parseNumTail (s : Str) : Option Str :=
  let fracRes : Option Str :=
    match s with
    | '.' :: r => parseDigits r
    | _ => some s
  match fracRes with
  | none => none
  | some s2 =>
    match s2 with
    | 'e' :: r =>
      (match r with
       | '+' :: q => parseDigits q
       | '-' :: q => parseDigits q
       | _ => parseDigits r)
    | 'E' :: r =>
      (match r with
       | '+' :: q => parseDigits q
       | '-' :: q => parseDigits q
       | _ => parseDigits r)
    | _ => some s2

/-- A JSON number (no leading zeros, optional sign, fraction, exponent); the
value itself is irrelevant. -/
def parseNumber (s : Str) : Option Str :=
  let body : Str := match s with | '-' :: r => r | _ => s
  match body with
  | [] => none
  | '0' :: r => parseNumTail r
  | c :: r => if isDigit c then parseNumTail (r.dropWhile isDigit) else none

mutual
/-- Parse one JSON value. Fuel bounds the nesting of recursive calls and is
initialised generously from the input length. -/
def parseValue : Nat → Str → Option (Json × Str)
  | 0, _ => none
  | fuel + 1, s =>
    match skipWs s with
    | [] => none
    | c :: r =>
      if c = 'n' then
        match r with
        | k1 :: k2 :: k3 :: r2 =>
          if k1 = 'u' ∧ k2 = 'l' ∧ k3 = 'l' then some (.null, r2) else none
        | _ => none
      else if c = 't' then
        match r with
        | k1 :: k2 :: k3 :: r2 =>
          if k1 = 'r' ∧ k2 = 'u' ∧ k3 = 'e' then some (.bool true, r2) else none
        | _ => none
      else if c = 'f' then
        match r with
        | k1 :: k2 :: k3 :: k4 :: r2 =>
          if k1 = 'a' ∧ k2 = 'l' ∧ k3 = 's' ∧ k4 = 'e' then some (.bool false, r2)
          else none
        | _ => none
      else if c = '"' then (parseStringBody r.length r).map fun pr => (.str pr.1, pr.2)
      else if c = '[' then
        match skipWs r with
        | c2 :: r2 =>
          if c2 = ']' then some (.arr [], r2)
          else (parseElems fuel r).map fun pr => (.arr pr.1, pr.2)
        | [] => (parseElems fuel r).map fun pr => (.arr pr.1, pr.2)
      else if c = '\x7b' then
        match skipWs r with
        | c2 :: r2 =>
          if c2 = '\x7d' then some (.obj [], r2)
          else (parseMembers fuel r).map fun pr => (.obj pr.1, pr.2)
        | [] => (parseMembers fuel r).map fun pr => (.obj pr.1, pr.2)
      else (parseNumber (c :: r)).map fun rest => (.num, rest)
/-- Parse the comma-separated elements of a non-empty array, up to `]`. -/
def parseElems : Nat → Str → Option (List Json × Str)
  | 0, _ => none
  | fuel + 1, s =>
    match parseValue fuel s with
    | none => none
    | some (v, rest) =>
      match skipWs rest with
      | c2 :: r2 =>
        if c2 = ',' then (parseElems fuel r2).map fun pr => (v :: pr.1, pr.2)
        else if c2 = ']' then some ([v], r2)
        else none
      | [] => none
/-- Parse the members of a non-empty object, up to the closing brace. -/
def parseMembers : Nat → Str → Option (List (Str × Json) × Str)
  | 0, _ => none
  | fuel + 1, s =>
    match skipWs s with
    | c :: r =>
      if c = '"' then
        match parseStringBody r.length r with
        | none => none
        | some (k, rest) =>
          match skipWs rest with
          | c2 :: r2 =>
            if c2 = ':' then
              match parseValue fuel r2 with
              | none => none
              | some (v, rest2) =>
                match skipWs rest2 with
                | c3 :: r3 =>
                  if c3 = ',' then
                    (parseMembers fuel r3).map fun pr => ((k, v) :: pr.1, pr.2)
                  else if c3 = '\x7d' then some ([(k, v)], r3)
                  else none
                | [] => none
            else none
          | [] => none
      else none
    | [] => none
end

/-- Parse a complete JSON document: one value and then only whitespace. -/
def parseJson (s : Str) : Option Json :=
  match parseValue (s.length + 1) s with
  | none => none
  | some (v, rest) => if skipWs rest = [] then some v else none

/-- The decoded `policyMeta` struct. -/
structure PolicyMeta where
  name : Str
  description : Str
deriving DecidableEq

/-- ASCII case folding — the fragment of Go's case-insensitive field
matching relevant to the fields `name` and `description`. -/
def foldChar (c : Char) : Char :=
  if 'A' ≤ c ∧ c ≤ 'Z' then Char.ofNat (c.toNat + 32) else c

/-- Case-insensitive key comparison. -/
def foldEq (a b : Str) : Bool := decide (a.map foldChar = b.map foldChar)

/-- Apply one JSON object member to the struct, as `json.Unmarshal` does:
match the field case-insensitively, require a string (null is ignored),
skip unknown fields. -/
def applyMetaField (m : PolicyMeta) (k : Str) (v : Json) : Option PolicyMeta :=
  if foldEq k "name".data then
    match v with
    | .str s => some { m with name := s }
    | .null => some m
    | _ => none
  else if foldEq k "description".data then
    match v with
    | .str s => some { m with description := s }
    | .null => some m
    | _ => none
  else some m

/-- `json.Unmarshal` of a parsed document into `policyMeta`: a JSON null
leaves the zero struct, an object folds its members (last field wins),
anything else is a type error. -/
def metaFromJson : Json → Option PolicyMeta
  | .null => some ⟨[], []⟩
  | .obj kvs => kvs.foldlM (fun m kv => applyMetaField m kv.1 kv.2) ⟨[], []⟩
  | _ => none

/-- The decode half of the codec up to the tolerant fallback. -/
def parsePolicyMeta (blob : Str) : Option PolicyMeta :=
  (parseJson blob).bind metaFromJson

/-- `decodePolicyMeta` (authz.go): tolerant decode — an un-decodable blob
yields the blob itself as the name and an empty description. -/
def decodePolicyMeta (blob : Str) : Str × Str :=
  match parsePolicyMeta blob with
  | none => (blob, [])
  | some m => (m.name, m.description)

example : decodePolicyMeta (encodePolicyMeta "p1".data "demo".data) = ("p1".data, "demo".data) := by
  decide
example : decodePolicyMeta "not json".data = ("not json".data, []) := by decide
example : decodePolicyMeta "\"hello\"".data = ("\"hello\"".data, []) := by decide
example : decodePolicyMeta "null".data = ([], []) := by decide

theorem hexVal_hexChar (n : Nat) (h : n < 16) : hexVal (hexChar n) = some n := by
  interval_cases n <;> decide

theorem escChar_length_pos (c : Char) : 1 ≤ (escChar c).length := by
  rw [escChar]
  split_ifs <;> simp

theorem escBody_length_ge (s : Str) : s.length ≤ (escBody s).length := by
  induction s with
  | nil => simp [escBody]
  | cons c t ih =>
    have hc := escChar_length_pos c
    simp only [escBody, List.map_cons, List.flatten_cons, List.length_append,
      List.length_cons]
    simp only [escBody] at ih
    omega

theorem psb_close (f : Nat) (rest : Str) :
    parseStringBody (f + 1) ('"' :: rest) = some ([], rest) := rfl

theorem psb_emit {c : Char} {rest : Str} {ch : Char} {rest2 : Str} (f : Nat)
    (h : psbStep c rest = .emit ch rest2) :
    parseStringBody (f + 1) (c :: rest)
      = (parseStringBody f rest2).map fun pr => (ch :: pr.1, pr.2) := by
  rw [parseStringBody, h]

theorem psbStep_plain (c : Char) (X : Str) (h1 : c ≠ '"') (h2 : c ≠ '\\')
    (h3 : ¬ c.toNat < 0x20) : psbStep c X = .emit c X := by
  rw [psbStep.eq_def, if_neg h1, if_neg h2, if_neg h3]

theorem uniEsc_00 (d1 d2 : Char) (a b : Nat) (X : Str)
    (hv1 : hexVal d1 = some a) (hv2 : hexVal d2 = some b)
    (ha : a < 16) (hb : b < 16) :
    uniEsc ('0' :: '0' :: d1 :: d2 :: X) = some (Char.ofNat (a * 16 + b), X) := by
  rw [uniEsc]
  rw [show hexVal '0' = some 0 from by decide, hv1, hv2]
  dsimp only
  rw [if_neg (show ¬(0xD800 ≤ ((0 * 16 + 0) * 16 + a) * 16 + b ∧
    ((0 * 16 + 0) * 16 + a) * 16 + b < 0xDC00) by omega)]
  rw [if_neg (show ¬(0xDC00 ≤ ((0 * 16 + 0) * 16 + a) * 16 + b ∧
    ((0 * 16 + 0) * 16 + a) * 16 + b < 0xE000) by omega)]
  rw [show ((0 * 16 + 0) * 16 + a) * 16 + b = a * 16 + b from by ring]

theorem psbStep_u00 (d1 d2 : Char) (a b : Nat) (X : Str)
    (hv1 : hexVal d1 = some a) (hv2 : hexVal d2 = some b)
    (ha : a < 16) (hb : b < 16) :
    psbStep '\\' ('u' :: '0' :: '0' :: d1 :: d2 :: X) = .emit (Char.ofNat (a * 16 + b)) X := by
  rw [psbStep]
  rw [if_neg (show ('\\' : Char) ≠ '"' by decide)]
  rw [if_pos (show ('\\' : Char) = '\\' from rfl)]
  rw [if_neg (show ('u' : Char) ≠ '"' by decide)]
  rw [if_neg (show ('u' : Char) ≠ '\\' by decide)]
  rw [if_neg (show ('u' : Char) ≠ '/' by decide)]
  rw [if_neg (show ('u' : Char) ≠ 'b' by decide)]
  rw [if_neg (show ('u' : Char) ≠ 'f' by decide)]
  rw [if_neg (show ('u' : Char) ≠ 'n' by decide)]
  rw [if_neg (show ('u' : Char) ≠ 'r' by decide)]
  rw [if_neg (show ('u' : Char) ≠ 't' by decide)]
  rw [if_pos (show ('u' : Char) = 'u' from rfl)]
  rw [uniEsc_00 d1 d2 a b X hv1 hv2 ha hb]

theorem parseStringBody_escape :
    ∀ (s rest : Str) (fuel : Nat), s.length + 1 ≤ fuel →
      parseStringBody fuel (escBody s ++ '"' :: rest) = some (s, rest) := by
  intro s
  induction s with
  | nil =>
    intro rest fuel hf
    obtain ⟨f, rfl⟩ : ∃ f, fuel = f + 1 := ⟨fuel - 1, by omega⟩
    rw [show escBody ([] : Str) = [] from rfl, List.nil_append, psb_close]
  | cons c t ih =>
    intro rest fuel hf
    obtain ⟨f, rfl⟩ : ∃ f, fuel = f + 1 := ⟨fuel - 1, by omega⟩
    have hft : t.length + 1 ≤ f := by
      simp only [List.length_cons] at hf
      omega
    have hIH := ih rest f hft
    have hesc : escBody (c :: t) ++ '"' :: rest = escChar c ++ (escBody t ++ '"' :: rest) := by
      simp [escBody]
    rw [hesc, escChar]
    by_cases h1 : c = '"'
    · rw [if_pos h1]; subst h1
      simp only [List.cons_append, List.nil_append]
      have hstep : psbStep '\\' ('"' :: (escBody t ++ '"' :: rest))
          = .emit '"' (escBody t ++ '"' :: rest) := rfl
      rw [psb_emit f hstep, hIH]
      rfl
    · rw [if_neg h1]
      by_cases h2 : c = '\\'
      · rw [if_pos h2]; subst h2
        simp only [List.cons_append, List.nil_append]
        have hstep : psbStep '\\' ('\\' :: (escBody t ++ '"' :: rest))
            = .emit '\\' (escBody t ++ '"' :: rest) := rfl
        rw [psb_emit f hstep, hIH]
        rfl
      · rw [if_neg h2]
        by_cases h3 : c = '\n'
        · rw [if_pos h3]; subst h3
          simp only [List.cons_append, List.nil_append]
          have hstep : psbStep '\\' ('n' :: (escBody t ++ '"' :: rest))
              = .emit '\n' (escBody t ++ '"' :: rest) := rfl
          rw [psb_emit f hstep, hIH]
          rfl
        · rw [if_neg h3]
          by_cases h4 : c = '\r'
          · rw [if_pos h4]; subst h4
            simp only [List.cons_append, List.nil_append]
            have hstep : psbStep '\\' ('r' :: (escBody t ++ '"' :: rest))
                = .emit '\r' (escBody t ++ '"' :: rest) := rfl
            rw [psb_emit f hstep, hIH]
            rfl
          · rw [if_neg h4]
            by_cases h5 : c = '\t'
            · rw [if_pos h5]; subst h5
              simp only [List.cons_append, List.nil_append]
              have hstep : psbStep '\\' ('t' :: (escBody t ++ '"' :: rest))
                  = .emit '\t' (escBody t ++ '"' :: rest) := rfl
              rw [psb_emit f hstep, hIH]
              rfl
            · rw [if_neg h5]
              by_cases h6 : c = '<' ∨ c = '>' ∨ c = '&' ∨ c.toNat < 0x20
              · rw [if_pos h6]
                have hlt : c.toNat < 256 := by
                  rcases h6 with h | h | h | h
                  · subst h; decide
                  · subst h; decide
                  · subst h; decide
                  · omega
                have hdiv : c.toNat / 16 < 16 := by omega
                have hmod : c.toNat % 16 < 16 := by omega
                have hv1 := hexVal_hexChar _ hdiv
                have hv2 := hexVal_hexChar _ hmod
                simp only [List.cons_append, List.nil_append]
                rw [psb_emit f (psbStep_u00 (hexChar (c.toNat / 16)) (hexChar (c.toNat % 16))
                  (c.toNat / 16) (c.toNat % 16) (escBody t ++ '"' :: rest) hv1 hv2 hdiv hmod)]
                rw [hIH]
                rw [show c.toNat / 16 * 16 + c.toNat % 16 = c.toNat from by omega]
                rw [Char.ofNat_toNat]
                rfl
              · rw [if_neg h6]
                push_neg at h6
                obtain ⟨hne1, hne2, hne3, hge⟩ := h6
                by_cases h7 : c.toNat = 0x2028 ∨ c.toNat = 0x2029
                · rw [if_pos h7]
                  rcases h7 with h7 | h7
                  · have hc : c = Char.ofNat 0x2028 := by
                      have hco := Char.ofNat_toNat c
                      rw [h7] at hco
                      exact hco.symm
                    subst hc
                    rw [show hexChar ((Char.ofNat 0x2028).toNat % 16) = '8' from by decide]
                    simp only [List.cons_append, List.nil_append]
                    have hstep : psbStep '\\'
                        ('u' :: '2' :: '0' :: '2' :: '8' :: (escBody t ++ '"' :: rest))
                        = .emit (Char.ofNat 0x2028) (escBody t ++ '"' :: rest) := rfl
                    rw [psb_emit f hstep, hIH]
                    rfl
                  · have hc : c = Char.ofNat 0x2029 := by
                      have hco := Char.ofNat_toNat c
                      rw [h7] at hco
                      exact hco.symm
                    subst hc
                    rw [show hexChar ((Char.ofNat 0x2029).toNat % 16) = '9' from by decide]
                    simp only [List.cons_append, List.nil_append]
                    have hstep : psbStep '\\'
                        ('u' :: '2' :: '0' :: '2' :: '9' :: (escBody t ++ '"' :: rest))
                        = .emit (Char.ofNat 0x2029) (escBody t ++ '"' :: rest) := rfl
                    rw [psb_emit f hstep, hIH]
                    rfl
                · rw [if_neg h7]
                  have hge2 : ¬ c.toNat < 0x20 := by omega
                  simp only [List.cons_append, List.nil_append]
                  rw [psb_emit f (psbStep_plain c (escBody t ++ '"' :: rest) h1 h2 hge2), hIH]
                  rfl

theorem skipWs_cons (c : Char) (t : Str) (h : isJsonWs c = false) : skipWs (c :: t) = c :: t := by
  simp [skipWs, List.dropWhile_cons, h]

theorem escBody_append_len (s X : Str) : s.length + 1 ≤ (escBody s ++ '"' :: X).length := by
  have h := escBody_length_ge s
  simp only [List.length_append, List.length_cons]
  omega

theorem psb_key_name (t : Str) :
    parseStringBody (('n' :: 'a' :: 'm' :: 'e' :: '"' :: t : Str).length)
      ('n' :: 'a' :: 'm' :: 'e' :: '"' :: t) = some ("name".data, t) := rfl

theorem psb_key_desc (t : Str) :
    parseStringBody
      (('d' :: 'e' :: 's' :: 'c' :: 'r' :: 'i' :: 'p' :: 't' :: 'i' :: 'o' :: 'n' :: '"'
        :: t : Str).length)
      ('d' :: 'e' :: 's' :: 'c' :: 'r' :: 'i' :: 'p' :: 't' :: 'i' :: 'o' :: 'n' :: '"' :: t)
      = some ("description".data, t) := rfl

theorem pv_str_step (f : Nat) (t : Str) :
    parseValue (f + 1) ('"' :: t)
      = (parseStringBody t.length t).map fun pr => (Json.str pr.1, pr.2) := rfl

theorem pv_obj_step (f : Nat) (t : Str) :
    parseValue (f + 1) ('\x7b' :: '"' :: t)
      = (parseMembers f ('"' :: t)).map fun pr => (Json.obj pr.1, pr.2) := rfl

theorem pv_str (f : Nat) (s X : Str) :
    parseValue (f + 1) ('"' :: (escBody s ++ '"' :: X)) = some (.str s, X) := by
  rw [pv_str_step]
  rw [parseStringBody_escape s X _ (escBody_append_len s X)]
  rfl

theorem pm_desc (f : Nat) (desc : Str) :
    parseMembers (f + 2)
      ('"' :: 'd' :: 'e' :: 's' :: 'c' :: 'r' :: 'i' :: 'p' :: 't' :: 'i' :: 'o' :: 'n' :: '"'
        :: ':' :: '"' :: (escBody desc ++ '"' :: '\x7d' :: []))
      = some ([("description".data, .str desc)], []) := by
  rw [parseMembers, skipWs_cons _ _ (by decide)]
  dsimp only
  rw [if_pos (show ('"' : Char) = '"' from rfl)]
  rw [psb_key_desc (':' :: '"' :: (escBody desc ++ '"' :: '\x7d' :: []))]
  dsimp only
  rw [skipWs_cons _ _ (by decide)]
  dsimp only
  rw [if_pos (show (':' : Char) = ':' from rfl)]
  rw [pv_str f desc ('\x7d' :: [])]
  dsimp only
  rw [skipWs_cons _ _ (by decide)]
  dsimp only
  rw [if_neg (show ('\x7d' : Char) ≠ ',' by decide)]
  rw [if_pos (show ('\x7d' : Char) = '\x7d' from rfl)]

theorem pm_single (f : Nat) (name : Str) :
    parseMembers (f + 2)
      ('"' :: 'n' :: 'a' :: 'm' :: 'e' :: '"' :: ':' :: '"' ::
        (escBody name ++ '"' :: '\x7d' :: []))
      = some ([("name".data, .str name)], []) := by
  rw [parseMembers, skipWs_cons _ _ (by decide)]
  dsimp only
  rw [if_pos (show ('"' : Char) = '"' from rfl)]
  rw [psb_key_name (':' :: '"' :: (escBody name ++ '"' :: '\x7d' :: []))]
  dsimp only
  rw [skipWs_cons _ _ (by decide)]
  dsimp only
  rw [if_pos (show (':' : Char) = ':' from rfl)]
  rw [pv_str f name ('\x7d' :: [])]
  dsimp only
  rw [skipWs_cons _ _ (by decide)]
  dsimp only
  rw [if_neg (show ('\x7d' : Char) ≠ ',' by decide)]
  rw [if_pos (show ('\x7d' : Char) = '\x7d' from rfl)]

theorem pm_double (f : Nat) (name desc : Str) :
    parseMembers (f + 3)
      ('"' :: 'n' :: 'a' :: 'm' :: 'e' :: '"' :: ':' :: '"' ::
        (escBody name ++ '"' :: ',' :: '"' :: 'd' :: 'e' :: 's' :: 'c' :: 'r' :: 'i' :: 'p'
          :: 't' :: 'i' :: 'o' :: 'n' :: '"' :: ':' :: '"' ::
          (escBody desc ++ '"' :: '\x7d' :: [])))
      = some ([("name".data, .str name), ("description".data, .str desc)], []) := by
  rw [parseMembers, skipWs_cons _ _ (by decide)]
  dsimp only
  rw [if_pos (show ('"' : Char) = '"' from rfl)]
  rw [psb_key_name (':' :: '"' :: (escBody name ++ '"' :: ',' :: '"' :: 'd' :: 'e' :: 's'
    :: 'c' :: 'r' :: 'i' :: 'p' :: 't' :: 'i' :: 'o' :: 'n' :: '"' :: ':' :: '"' ::
    (escBody desc ++ '"' :: '\x7d' :: [])))]
  dsimp only
  rw [skipWs_cons _ _ (by decide)]
  dsimp only
  rw [if_pos (show (':' : Char) = ':' from rfl)]
  rw [pv_str (f + 1) name (',' :: '"' :: 'd' :: 'e' :: 's' :: 'c' :: 'r' :: 'i' :: 'p' :: 't'
    :: 'i' :: 'o' :: 'n' :: '"' :: ':' :: '"' :: (escBody desc ++ '"' :: '\x7d' :: []))]
  dsimp only
  rw [skipWs_cons _ _ (by decide)]
  dsimp only
  rw [if_pos (show (',' : Char) = ',' from rfl)]
  rw [pm_desc f desc]
  rfl

theorem decode_encode (name desc : Str) :
    decodePolicyMeta (encodePolicyMeta name desc) = (name, desc) := by
  have hk1 : ("\"name\":" : String).data
      = '"' :: 'n' :: 'a' :: 'm' :: 'e' :: '"' :: ':' :: ([] : Str) := rfl
  have hk2 : ("\"description\":" : String).data
      = '"' :: 'd' :: 'e' :: 's' :: 'c' :: 'r' :: 'i' :: 'p' :: 't' :: 'i' :: 'o' :: 'n'
        :: '"' :: ':' :: ([] : Str) := rfl
  by_cases hd : desc = []
  · subst hd
    have hblob : encodePolicyMeta name []
        = '\x7b' :: '"' :: 'n' :: 'a' :: 'm' :: 'e' :: '"' :: ':' :: '"' ::
            (escBody name ++ '"' :: '\x7d' :: []) := by
      rw [encodePolicyMeta, hk1]
      simp [encodeJsonString]
    rw [decodePolicyMeta, parsePolicyMeta, parseJson, hblob]
    rw [pv_obj_step]
    rw [show ('\x7b' :: '"' :: 'n' :: 'a' :: 'm' :: 'e' :: '"' :: ':' :: '"' ::
        (escBody name ++ '"' :: '\x7d' :: []) : Str).length
        = (escBody name).length + 9 + 2 from by simp; try omega]
    rw [pm_single ((escBody name).length + 9) name]
    rfl
  · have hblob : encodePolicyMeta name desc
        = '\x7b' :: '"' :: 'n' :: 'a' :: 'm' :: 'e' :: '"' :: ':' :: '"' ::
            (escBody name ++ '"' :: ',' :: '"' :: 'd' :: 'e' :: 's' :: 'c' :: 'r' :: 'i'
              :: 'p' :: 't' :: 'i' :: 'o' :: 'n' :: '"' :: ':' :: '"' ::
              (escBody desc ++ '"' :: '\x7d' :: [])) := by
      rw [encodePolicyMeta, if_neg hd, hk1, hk2]
      simp [encodeJsonString]
    rw [decodePolicyMeta, parsePolicyMeta, parseJson, hblob]
    rw [pv_obj_step]
    rw [show ('\x7b' :: '"' :: 'n' :: 'a' :: 'm' :: 'e' :: '"' :: ':' :: '"' ::
        (escBody name ++ '"' :: ',' :: '"' :: 'd' :: 'e' :: 's' :: 'c' :: 'r' :: 'i'
          :: 'p' :: 't' :: 'i' :: 'o' :: 'n' :: '"' :: ':' :: '"' ::
          (escBody desc ++ '"' :: '\x7d' :: [])) : Str).length
        = (escBody name).length + (escBody desc).length + 25 + 3 from by simp; try omega]
    rw [pm_double ((escBody name).length + (escBody desc).length + 25) name desc]
    rfl

/-- `authorizerImpl.CreatePolicy` (authz.go): validate the cedar text,
resolve the account's policy store, store a template whose statement is the
cedar text and whose description is the encoded metadata blob (the
engine-assigned template id and timestamp are passed in by the model), and
return the policy DTO. -/
def CreatePolicy (s : ServiceState) (aid name description cedar tid created : Str) :
    Except Str Policy × ServiceState :=
  if goTrimSpace cedar = [] then
    (.error "invalid policy: cedar policy text is required".data, s)
  else
    match getAccountPolicyStoreID s aid with
    | .error e => (.error e, s)
    | .ok psid =>
      (.ok ⟨aid, tid, name, description, cedar, created⟩,
       { s with avp := (createPolicyTemplate s.avp psid tid cedar
           (encodePolicyMeta name description) created) })

/-- `authorizerImpl.GetPolicy` (authz.go): resolve the account's policy
store, fetch the template, and decode name and description from the
template's description blob. -/
def GetPolicy (s : ServiceState) (aid pid : Str) : Except Str Policy :=
  match getAccountPolicyStoreID s aid with
  | .error e => .error e
  | .ok psid =>
    match getPolicyTemplate s.avp psid pid with
    | .error e => .error ("failed to get policy template: ".data ++ e)
    | .ok tmpl =>
      .ok ⟨aid, pid, (decodePolicyMeta tmpl.description).1,
        (decodePolicyMeta tmpl.description).2, tmpl.statement, tmpl.createdDate⟩

theorem getPolicyTemplate_create (st : AVPState) (sid tid stmt d created : Str) :
    getPolicyTemplate (createPolicyTemplate st sid tid stmt d created) sid tid
      = .ok ⟨stmt, d, created⟩ := by
  rw [getPolicyTemplate, createPolicyTemplate]
  simp [getStore_setStore, lookupA_insertA]

/-- **C6.** For all strings `name` and `description`, decoding the encoded
metadata blob returns exactly `(name, description)`; an un-decodable blob
decodes to the blob itself with an empty description; and on any account
with a policy store, `CreatePolicy` followed by `GetPolicy` of the returned
id yields the same name and description and the byte-identical cedar
text. -/
theorem c6_policy_meta_roundtrip :
    (∀ name desc : Str, decodePolicyMeta (encodePolicyMeta name desc) = (name, desc)) ∧
    (∀ blob : Str, parsePolicyMeta blob = none → decodePolicyMeta blob = (blob, [])) ∧
    (∀ (s : ServiceState) (aid name desc cedar tid created psid : Str),
      goTrimSpace cedar ≠ [] →
      getAccountPolicyStoreID s aid = .ok psid →
      (CreatePolicy s aid name desc cedar tid created).1
          = .ok ⟨aid, tid, name, desc, cedar, created⟩ ∧
      GetPolicy (CreatePolicy s aid name desc cedar tid created).2 aid tid
          = .ok ⟨aid, tid, name, desc, cedar, created⟩) := by
  refine ⟨decode_encode, ?_, ?_⟩
  · intro blob h
    rw [decodePolicyMeta, h]
  · intro s aid name desc cedar tid created psid hc hps
    have hCP : CreatePolicy s aid name desc cedar tid created
        = (.ok ⟨aid, tid, name, desc, cedar, created⟩,
           { s with avp := (createPolicyTemplate s.avp psid tid cedar
               (encodePolicyMeta name desc) created) }) := by
      rw [CreatePolicy, if_neg hc, hps]
    have hps2 : getAccountPolicyStoreID
        { s with avp := (createPolicyTemplate s.avp psid tid cedar
            (encodePolicyMeta name desc) created) } aid = .ok psid := hps
    constructor
    · rw [hCP]
    · rw [hCP]
      rw [GetPolicy, hps2]
      rw [show ({ s with avp := (createPolicyTemplate s.avp psid tid cedar
          (encodePolicyMeta name desc) created) } : ServiceState).avp
          = createPolicyTemplate s.avp psid tid cedar (encodePolicyMeta name desc) created
          from rfl]
      dsimp only
      rw [getPolicyTemplate_create]
      dsimp only
      rw [decode_encode]

/-- A provisioned account and service state used to witness C6. -/
def c6Acct : Account := ⟨"a1".data, "ps1".data, false, "t0".data, "u1".data⟩

/-- The service state holding only `c6Acct`. -/
def c6St : ServiceState := ⟨[c6Acct], []⟩

theorem c6_policy_meta_roundtrip_witness :
    decodePolicyMeta (encodePolicyMeta "p1".data "demo".data) = ("p1".data, "demo".data) ∧
    (parsePolicyMeta "not json".data = none ∧
      decodePolicyMeta "not json".data = ("not json".data, [])) ∧
    (CreatePolicy c6St "a1".data "p1".data "demo".data "permit;".data "t1".data "now".data).1
        = .ok ⟨"a1".data, "t1".data, "p1".data, "demo".data, "permit;".data, "now".data⟩ ∧
    GetPolicy (CreatePolicy c6St "a1".data "p1".data "demo".data "permit;".data "t1".data
        "now".data).2 "a1".data "t1".data
        = .ok ⟨"a1".data, "t1".data, "p1".data, "demo".data, "permit;".data, "now".data⟩ :=
  ⟨c6_policy_meta_roundtrip.1 "p1".data "demo".data,
   ⟨by decide, c6_policy_meta_roundtrip.2.1 "not json".data (by decide)⟩,
   (c6_policy_meta_roundtrip.2.2 c6St "a1".data "p1".data "demo".data "permit;".data
     "t1".data "now".data "ps1".data (by decide) (by rfl)).1,
   (c6_policy_meta_roundtrip.2.2 c6St "a1".data "p1".data "demo".data "permit;".data
     "t1".data "now".data "ps1".data (by decide) (by rfl)).2⟩
